import Mathlib

/-!
Formal model of the WST-DevClick workspace automation pipeline.

Shallow embedding of the Python sources under `src/`:
`workspace_manager.py`, `automation.py`, `eclipse_manager.py`,
`build_manager.py`, `resource_manager.py`.  Filesystem state, process
outcomes and console input are modelled explicitly; each Lean definition
mirrors one Python function and is named after it.
-/

/-! ## Workspace slot resolution (`workspace_manager.py`, `get_next_workspace_path`)

The base directory is modelled by the list of its entries whose name has
the form `prefix + decimal-suffix`: each entry is `(suffix, isDir)`.
Entries whose name does not have that form are never consulted by
`get_next_workspace_path` (it only probes `basePath / f"{prefix}{version}"`),
so they are omitted from the model.  `Path.exists()` is true for a file or
a directory; `is_dir()` only for a directory. -/

/-- `(base / (prefix ++ toString v)).exists()` : true when any entry (file
or directory) carries suffix `v`. -/
def pathExistsE (es : List (Nat × Bool)) (v : Nat) : Bool :=
  es.any (fun e => e.1 == v)

/-- An entry with suffix `v` that is a directory exists (`is_dir()`). -/
def dirExistsE (es : List (Nat × Bool)) (v : Nat) : Bool :=
  es.any (fun e => e.1 == v && e.2)

/-- Largest suffix present among the entries (0 when none). -/
def maxSuffix (es : List (Nat × Bool)) : Nat :=
  (es.map Prod.fst).foldr Nat.max 0

/-- The `while True` loop of `get_next_workspace_path`: starting at
`version`, return the first version whose path does not exist.  The fuel
argument bounds the iteration count; `maxSuffix es + 1` iterations always
suffice (proved below), so the wrapper reproduces the unbounded loop. -/
def nextVersionLoop (es : List (Nat × Bool)) : Nat → Nat → Nat
  | 0, v => v
  | fuel + 1, v => if pathExistsE es v then nextVersionLoop es fuel (v + 1) else v

/-- `WorkspaceManager.get_next_workspace_path` (lines 34-44): scan versions
1, 2, 3, ... and return the first whose path (file or directory) does not
exist. -/
def get_next_workspace_path (es : List (Nat × Bool)) : Nat :=
  nextVersionLoop es (maxSuffix es + 1) 1

theorem pathExistsE_le_maxSuffix {es : List (Nat × Bool)} {v : Nat}
    (h : pathExistsE es v = true) : v ≤ maxSuffix es := by
  induction es with
  | nil => simp [pathExistsE] at h
  | cons e es ih =>
    simp only [pathExistsE, List.any_cons, Bool.or_eq_true, beq_iff_eq] at h
    rcases h with h | h
    · subst h
      simp only [maxSuffix, List.map_cons, List.foldr_cons]
      exact Nat.le_max_left _ _
    · have := ih h
      simp only [maxSuffix, List.map_cons, List.foldr_cons]
      exact le_trans this (Nat.le_max_right _ _)

theorem nextVersionLoop_spec (es : List (Nat × Bool)) :
    ∀ fuel v, maxSuffix es < v + fuel →
      v ≤ nextVersionLoop es fuel v ∧
      pathExistsE es (nextVersionLoop es fuel v) = false ∧
      (∀ w, v ≤ w → w < nextVersionLoop es fuel v → pathExistsE es w = true) := by
  intro fuel
  induction fuel with
  | zero =>
    intro v hv
    refine ⟨le_refl v, ?_, ?_⟩
    · cases hfree : pathExistsE es v with
      | false => simpa [nextVersionLoop] using hfree
      | true =>
        have := pathExistsE_le_maxSuffix hfree
        omega
    · intro w hw hw'
      simp only [nextVersionLoop] at hw'
      omega
  | succ fuel ih =>
    intro v hv
    by_cases hex : pathExistsE es v = true
    · have hrec := ih (v + 1) (by omega)
      refine ⟨?_, ?_, ?_⟩
      · simp only [nextVersionLoop, hex, if_true]
        omega
      · simp only [nextVersionLoop, hex, if_true]
        exact hrec.2.1
      · intro w hw hw'
        simp only [nextVersionLoop, hex, if_true] at hw'
        rcases Nat.eq_or_lt_of_le hw with rfl | hlt
        · exact hex
        · exact hrec.2.2 w (by omega) hw'
    · simp only [Bool.not_eq_true] at hex
      refine ⟨?_, ?_, ?_⟩
      · simp [nextVersionLoop, hex]
      · simp [nextVersionLoop, hex]
      · intro w hw hw'
        simp only [nextVersionLoop, hex, Bool.false_eq_true, if_false] at hw'
        omega

/-! ## Repository reconciliation (`workspace_manager.py`, `validate_workspace_repos`)

A configured repository (`config.py`, `_load_repositories`).  `name` is
used as the checkout directory name. -/

structure Repo where
  url : String
  name : String
  branch : String
deriving DecidableEq

/-- `WorkspaceManager.validate_workspace_repos` (lines 87-100): one pass
over `config.repositories`, appending each repo to `existing_repos` when
`(workspace_path / name).exists() and .is_dir()` holds and to
`missing_repos` otherwise.  `isDirAt name` models that combined filesystem
test.  Returns `(existing_repos, missing_repos)`. -/
def validate_workspace_repos (isDirAt : String → Bool) (repos : List Repo) :
    List Repo × List Repo :=
  repos.foldl
    (fun acc repo =>
      if isDirAt repo.name then (acc.1 ++ [repo], acc.2) else (acc.1, acc.2 ++ [repo]))
    ([], [])

theorem validate_workspace_repos_foldl (isDirAt : String → Bool) :
    ∀ (repos : List Repo) (ex mi : List Repo),
      repos.foldl
        (fun acc repo =>
          if isDirAt repo.name then (acc.1 ++ [repo], acc.2) else (acc.1, acc.2 ++ [repo]))
        (ex, mi)
      = (ex ++ repos.filter (fun r => isDirAt r.name),
         mi ++ repos.filter (fun r => !isDirAt r.name)) := by
  intro repos
  induction repos with
  | nil => intro ex mi; simp
  | cons r rs ih =>
    intro ex mi
    by_cases h : isDirAt r.name
    · simp [List.foldl_cons, h, ih, List.filter_cons]
    · simp [List.foldl_cons, h, ih, List.filter_cons]

theorem validate_workspace_repos_eq_filter (isDirAt : String → Bool) (repos : List Repo) :
    validate_workspace_repos isDirAt repos
      = (repos.filter (fun r => isDirAt r.name),
         repos.filter (fun r => !isDirAt r.name)) := by
  simpa [validate_workspace_repos] using
    validate_workspace_repos_foldl isDirAt repos [] []

/-! ## Interactive workspace selection (`workspace_manager.py`, `select_or_create_workspace`)

Console interaction is modelled by a script of input events: `input()`
either yields a line, raises `KeyboardInterrupt`, or raises `EOFError`. -/

inductive InEvent where
  | line (s : String)
  | interrupt
  | endOfInput
deriving DecidableEq

/-- Result of the selection: a chosen `(workspacePath, isNew)` pair, an
exception escaping the function (`EOFError`), or the loop consuming the
whole script and blocking on the next `input()`. -/
inductive SelResult where
  | chosen (ws : String) (isNew : Bool)
  | raised
  | blocked
deriving DecidableEq

/-- Python whitespace stripped by `str.strip()` (ASCII subset). -/
def isPySpace (c : Char) : Bool :=
  c == ' ' || c == '\t' || c == '\n' || c == '\r' || c == '\x0b' || c == '\x0c'

/-- `str.strip()` on ASCII whitespace. -/
def pyStrip (s : List Char) : List Char :=
  ((s.dropWhile isPySpace).reverse.dropWhile isPySpace).reverse

/-- Digits-and-underscores body of a Python integer literal: nonempty, no
leading, trailing or doubled underscore. -/
def pyDigitsValid : List Char → Bool
  | [] => false
  | [c] => c.isDigit
  | c :: '_' :: rest => c.isDigit && pyDigitsValid rest
  | c :: rest => c.isDigit && pyDigitsValid rest

/-- Numeric value of the digits (underscores skipped). -/
def pyDigitsVal : List Char → Nat
  | [] => 0
  | c :: rest => if c == '_' then pyDigitsVal rest
      else pyDigitsVal rest + (c.toNat - 48) * 10 ^ ((rest.filter (· != '_')).length)

/-- `int(s)` on an already-stripped string: optional sign, then decimal
digits with optional underscore grouping; `none` models `ValueError`. -/
def pyInt (s : List Char) : Option Int :=
  match s with
  | '+' :: rest => if pyDigitsValid rest then some (pyDigitsVal rest) else none
  | '-' :: rest => if pyDigitsValid rest then some (-(pyDigitsVal rest : Int)) else none
  | rest => if pyDigitsValid rest then some (pyDigitsVal rest) else none

/-- The `while True` prompt loop of `select_or_create_workspace`
(lines 61-82), driven by the input script.  `existing` is the list of
existing workspaces shown to the user, `next` the path of the next new
workspace (`get_next_workspace_path`). -/
def selectLoop (existing : List String) (next : String) : List InEvent → SelResult
  | [] => SelResult.blocked
  | InEvent.interrupt :: _ => SelResult.chosen next true
  | InEvent.endOfInput :: _ => SelResult.raised
  | InEvent.line s :: rest =>
    let choice := pyStrip s.data
    if choice = [] then SelResult.chosen next true
    else
      match pyInt choice with
      | none => selectLoop existing next rest
      | some k =>
        if 1 ≤ k ∧ k ≤ existing.length then
          SelResult.chosen (existing.getD (k.toNat - 1) "") false
        else if k = existing.length + 1 then SelResult.chosen next true
        else selectLoop existing next rest

/-- `WorkspaceManager.select_or_create_workspace` (lines 46-85): with no
existing workspaces, immediately create new; otherwise run the prompt
loop. -/
def select_or_create_workspace (existing : List String) (next : String)
    (events : List InEvent) : SelResult :=
  if existing.isEmpty then SelResult.chosen next true
  else selectLoop existing next events

/-! ## Template rendering (`resource_manager.py`, `process_template`)

Text is modelled as `List Char`.  `str.replace(old, new)` scans left to
right, replacing non-overlapping occurrences; the replacement text is not
rescanned by the same pass.  The patterns used by `process_template` are
always of the form `"$" ++ "\x7b" ++ key ++ "\x7d"`, hence nonempty, so the
fuel `s.length` below always suffices (each recursive call consumes at
least one character of `s`). -/

/-- One pass of `content.replace(pat, rep)`, with fuel bounding the number
of scan steps. -/
def replaceAux (pat rep : List Char) : Nat → List Char → List Char
  | _, [] => []
  | 0, c :: cs => c :: cs
  | fuel + 1, c :: cs =>
    if pat.isPrefixOf (c :: cs) then
      rep ++ replaceAux pat rep fuel (cs.drop (pat.length - 1))
    else c :: replaceAux pat rep fuel cs

/-- `s.replace(pat, rep)` for nonempty `pat`. -/
def replaceAll (pat rep s : List Char) : List Char :=
  replaceAux pat rep s.length s

/-- The `${KEY}` placeholder string built by `process_template`
(line 40: `placeholder = f"$\x7b\x7b{key}\x7d\x7d"`). -/
def placeholder (key : List Char) : List Char :=
  '$' :: '\x7b' :: (key ++ ['\x7d'])

/-- `ResourceManager.process_template` (lines 23-46): fold the replacement
map over the content in insertion order, replacing every occurrence of
each `${KEY}` by its value. -/
def process_template (content : List Char) (replacements : List (List Char × List Char)) :
    List Char :=
  replacements.foldl (fun acc kv => replaceAll (placeholder kv.1) kv.2 acc) content

theorem replaceAux_nil (pat rep : List Char) (fuel : Nat) :
    replaceAux pat rep fuel [] = [] := by
  cases fuel <;> rfl

theorem replaceAux_fuel_irrel (pat rep : List Char) :
    ∀ (f₁ : Nat) (s : List Char) (f₂ : Nat), s.length ≤ f₁ → s.length ≤ f₂ →
      replaceAux pat rep f₁ s = replaceAux pat rep f₂ s := by
  intro f₁
  induction f₁ with
  | zero =>
    intro s f₂ h₁ _
    have : s = [] := List.length_eq_zero.mp (Nat.le_zero.mp h₁)
    subst this
    rw [replaceAux_nil, replaceAux_nil]
  | succ f ih =>
    intro s f₂ h₁ h₂
    cases s with
    | nil => rw [replaceAux_nil, replaceAux_nil]
    | cons c cs =>
      cases f₂ with
      | zero => simp at h₂
      | succ f₂' =>
        simp only [List.length_cons, Nat.add_le_add_iff_right] at h₁ h₂
        have hdrop : ∀ k, (cs.drop k).length ≤ cs.length := by
          intro k; simp [List.length_drop]
        by_cases hpre : pat.isPrefixOf (c :: cs) = true
        · simp only [replaceAux]
          rw [if_pos hpre, if_pos hpre,
            ih (cs.drop (pat.length - 1)) f₂'
              (le_trans (hdrop _) h₁) (le_trans (hdrop _) h₂)]
        · simp only [replaceAux]
          rw [if_neg hpre, if_neg hpre, ih cs f₂' h₁ h₂]

/-- Unfolding equation for `replaceAll` on a cons cell. -/
theorem replaceAll_cons (pat rep : List Char) (c : Char) (cs : List Char) :
    replaceAll pat rep (c :: cs)
      = if pat.isPrefixOf (c :: cs) then
          rep ++ replaceAll pat rep (cs.drop (pat.length - 1))
        else c :: replaceAll pat rep cs := by
  have hdrop : (cs.drop (pat.length - 1)).length ≤ cs.length := by
    simp [List.length_drop]
  by_cases hpre : pat.isPrefixOf (c :: cs) = true
  · simp only [replaceAll, List.length_cons, replaceAux]
    rw [if_pos hpre, if_pos hpre,
      replaceAux_fuel_irrel pat rep cs.length (cs.drop (pat.length - 1)) _ hdrop le_rfl]
  · simp only [replaceAll, List.length_cons, replaceAux]
    rw [if_neg hpre, if_neg hpre]

theorem replaceAll_nil (pat rep : List Char) : replaceAll pat rep [] = [] := rfl

/-- A character that is not a placeholder delimiter (`$`, braces). -/
def cleanChar (c : Char) : Bool :=
  !(c == '$' || c == '\x7b' || c == '\x7d')

/-- A well-formed template is an alternation of literal text and
placeholders; flattening it yields the template file content fed to
`process_template`. -/
inductive Seg where
  | lit (s : List Char)
  | ph (name : List Char)

/-- The raw text of a segment. -/
def segText : Seg → List Char
  | Seg.lit s => s
  | Seg.ph n => placeholder n

/-- The template text represented by a segment list. -/
def flattenT (tm : List Seg) : List Char :=
  (tm.map segText).flatten

/-- Well-formedness: literal text and placeholder names are free of the
delimiter characters. -/
def wfSeg : Seg → Bool
  | Seg.lit s => s.all cleanChar
  | Seg.ph n => n.all cleanChar

def wfT (tm : List Seg) : Bool := tm.all wfSeg

/-- First binding of a key in the replacement map. -/
def lookupKV : List (List Char × List Char) → List Char → Option (List Char)
  | [], _ => none
  | kv :: rest, k => if kv.1 = k then some kv.2 else lookupKV rest k

/-- Modelled from the spec: "substituting every occurrence of a `${NAME}`
placeholder with the string value of `NAME` from the variable map; unknown
placeholders are left verbatim (no error)" — simultaneous substitution on
a well-formed template. -/
def renderSeg (m : List (List Char × List Char)) : Seg → List Char
  | Seg.lit s => s
  | Seg.ph n => (lookupKV m n).getD (placeholder n)

/-- Modelled from the spec: simultaneous one-pass rendering of a template. -/
def specRender (tm : List Seg) (m : List (List Char × List Char)) : List Char :=
  (tm.map (renderSeg m)).flatten

/-- Substitute one key throughout a template (placeholders of that key
become literal text). -/
def substK (tm : List Seg) (k v : List Char) : List Seg :=
  tm.map fun seg =>
    match seg with
    | Seg.ph n => if n = k then Seg.lit v else Seg.ph n
    | Seg.lit s => Seg.lit s

theorem replaceAll_no_dollar (k v : List Char) :
    ∀ (chunk rest : List Char), chunk.all (fun c => c != '$') = true →
      replaceAll (placeholder k) v (chunk ++ rest)
        = chunk ++ replaceAll (placeholder k) v rest := by
  intro chunk
  induction chunk with
  | nil => intro rest _; simp
  | cons c chunk ih =>
    intro rest hclean
    simp only [List.all_cons, Bool.and_eq_true, bne_iff_ne, ne_eq] at hclean
    have hnopre : (placeholder k).isPrefixOf (c :: (chunk ++ rest)) = false := by
      simp only [placeholder, List.isPrefixOf, Bool.and_eq_false_iff]
      left
      simp only [beq_eq_false_iff_ne, ne_eq]
      exact fun h => hclean.1 h.symm
    rw [List.cons_append, replaceAll_cons, hnopre]
    simp only [Bool.false_eq_true, if_false, List.cons_append, List.cons.injEq, true_and]
    exact ih rest hclean.2

theorem replaceAll_at_placeholder (k v rest : List Char) :
    replaceAll (placeholder k) v (placeholder k ++ rest)
      = v ++ replaceAll (placeholder k) v rest := by
  have hshape : placeholder k ++ rest = '$' :: ('\x7b' :: (k ++ ['\x7d']) ++ rest) := by
    simp [placeholder]
  rw [hshape, replaceAll_cons]
  have hpre : (placeholder k).isPrefixOf ('$' :: ('\x7b' :: (k ++ ['\x7d']) ++ rest)) = true := by
    have : placeholder k <+: placeholder k ++ rest := List.prefix_append _ _
    rw [← hshape]
    exact List.isPrefixOf_iff_prefix.mpr this
  rw [hpre, if_pos rfl]
  have hlen : (placeholder k).length - 1 = ('\x7b' :: (k ++ ['\x7d'])).length := by
    simp [placeholder]
  have hdrop : (('\x7b' :: (k ++ ['\x7d'])) ++ rest).drop ((placeholder k).length - 1) = rest := by
    rw [hlen]
    exact List.drop_left _ _
  rw [hdrop]

theorem key_mismatch_no_prefix :
    ∀ (k n rest : List Char), k.all (fun c => c != '\x7d') = true →
      n.all (fun c => c != '\x7d') = true → k ≠ n →
      (k ++ ['\x7d']).isPrefixOf (n ++ '\x7d' :: rest) = false := by
  intro k
  induction k with
  | nil =>
    intro n rest _ hn hne
    cases n with
    | nil => exact absurd rfl hne
    | cons b n' =>
      simp only [List.all_cons, Bool.and_eq_true, bne_iff_ne, ne_eq] at hn
      simp only [List.nil_append, List.cons_append, List.isPrefixOf,
        Bool.and_eq_false_iff]
      left
      simp only [beq_eq_false_iff_ne, ne_eq]
      exact fun h => hn.1 h.symm
  | cons a k' ih =>
    intro n rest hk hn hne
    simp only [List.all_cons, Bool.and_eq_true, bne_iff_ne, ne_eq] at hk
    cases n with
    | nil =>
      simp only [List.nil_append, List.cons_append, List.isPrefixOf,
        Bool.and_eq_false_iff]
      left
      simp only [beq_eq_false_iff_ne, ne_eq]
      exact hk.1
    | cons b n' =>
      simp only [List.all_cons, Bool.and_eq_true, bne_iff_ne, ne_eq] at hn
      by_cases hab : a = b
      · subst hab
        have hne' : k' ≠ n' := fun h => hne (by rw [h])
        simp only [List.cons_append, List.isPrefixOf, beq_self_eq_true,
          Bool.true_and]
        exact ih n' rest hk.2 hn.2 hne'
      · simp only [List.cons_append, List.isPrefixOf, Bool.and_eq_false_iff]
        left
        simp only [beq_eq_false_iff_ne, ne_eq]
        exact hab

theorem replaceAll_at_other_placeholder (k v n rest : List Char)
    (hk : k.all cleanChar = true) (hn : n.all cleanChar = true) (hne : n ≠ k) :
    replaceAll (placeholder k) v (placeholder n ++ rest)
      = placeholder n ++ replaceAll (placeholder k) v rest := by
  have hkbr : k.all (fun c => c != '\x7d') = true := by
    refine List.all_eq_true.mpr fun c hc => ?_
    have := List.all_eq_true.mp hk c hc
    simp only [cleanChar, Bool.not_eq_true', Bool.or_eq_false_iff,
      beq_eq_false_iff_ne, ne_eq] at this
    simpa using this.2
  have hnbr : n.all (fun c => c != '\x7d') = true := by
    refine List.all_eq_true.mpr fun c hc => ?_
    have := List.all_eq_true.mp hn c hc
    simp only [cleanChar, Bool.not_eq_true', Bool.or_eq_false_iff,
      beq_eq_false_iff_ne, ne_eq] at this
    simpa using this.2
  have hshape : placeholder n ++ rest = '$' :: '\x7b' :: (n ++ '\x7d' :: rest) := by
    simp [placeholder]
  have hnopre : (placeholder k).isPrefixOf ('$' :: '\x7b' :: (n ++ '\x7d' :: rest)) = false := by
    simp only [placeholder, List.isPrefixOf, beq_self_eq_true, Bool.true_and]
    exact key_mismatch_no_prefix k n rest hkbr hnbr (fun h => hne h.symm)
  have hnodollar : ('\x7b' :: (n ++ ['\x7d'])).all (fun c => c != '$') = true := by
    simp only [List.all_cons, List.all_append, List.all_cons, List.all_nil,
      Bool.and_eq_true, bne_iff_ne, ne_eq]
    refine ⟨by decide, ?_, by decide, trivial⟩
    refine List.all_eq_true.mpr fun c hc => ?_
    have := List.all_eq_true.mp hn c hc
    simp only [cleanChar, Bool.not_eq_true', Bool.or_eq_false_iff,
      beq_eq_false_iff_ne, ne_eq] at this
    simpa using this.1.1
  rw [hshape, replaceAll_cons, hnopre]
  simp only [Bool.false_eq_true, if_false]
  have hsplit : '\x7b' :: (n ++ '\x7d' :: rest) = ('\x7b' :: (n ++ ['\x7d'])) ++ rest := by
    simp
  rw [hsplit, replaceAll_no_dollar k v _ rest hnodollar]
  simp [placeholder]

theorem flattenT_cons (seg : Seg) (tm : List Seg) :
    flattenT (seg :: tm) = segText seg ++ flattenT tm := by
  simp [flattenT]

theorem replaceAll_flattenT (k v : List Char) (hk : k.all cleanChar = true) :
    ∀ (tm : List Seg), wfT tm = true →
      replaceAll (placeholder k) v (flattenT tm) = flattenT (substK tm k v) := by
  intro tm
  induction tm with
  | nil => intro _; simp [flattenT, substK, replaceAll_nil]
  | cons seg tm ih =>
    intro hwf
    simp only [wfT, List.all_cons, Bool.and_eq_true] at hwf
    have ih' := ih hwf.2
    cases seg with
    | lit s =>
      have hs : s.all (fun c => c != '$') = true := by
        refine List.all_eq_true.mpr fun c hc => ?_
        have := List.all_eq_true.mp hwf.1 c hc
        simp only [cleanChar, Bool.not_eq_true', Bool.or_eq_false_iff,
          beq_eq_false_iff_ne, ne_eq] at this
        simpa using this.1.1
      rw [flattenT_cons]
      simp only [segText]
      rw [replaceAll_no_dollar k v s (flattenT tm) hs, ih']
      simp [substK, flattenT_cons, segText]
    | ph n =>
      by_cases hkn : n = k
      · subst hkn
        rw [flattenT_cons]
        simp only [segText]
        rw [replaceAll_at_placeholder n v (flattenT tm), ih']
        simp [substK, flattenT_cons, segText]
      · rw [flattenT_cons]
        simp only [segText]
        rw [replaceAll_at_other_placeholder k v n (flattenT tm) hk hwf.1 hkn, ih']
        simp [substK, flattenT_cons, segText, hkn]

theorem wfT_substK {tm : List Seg} {k v : List Char} (hwf : wfT tm = true)
    (hv : v.all cleanChar = true) : wfT (substK tm k v) = true := by
  induction tm with
  | nil => simp [substK, wfT]
  | cons seg tm ih =>
    simp only [wfT, List.all_cons, Bool.and_eq_true] at hwf
    cases seg with
    | lit s =>
      simp only [substK, wfT, List.map_cons, List.all_cons, Bool.and_eq_true]
      exact ⟨hwf.1, by simpa [substK, wfT] using ih hwf.2⟩
    | ph n =>
      by_cases hkn : n = k
      · subst hkn
        simp only [substK, wfT, List.map_cons, if_pos rfl, List.all_cons,
          Bool.and_eq_true]
        exact ⟨hv, by simpa [substK, wfT] using ih hwf.2⟩
      · simp only [substK, wfT, List.map_cons, if_neg hkn, List.all_cons,
          Bool.and_eq_true]
        exact ⟨hwf.1, by simpa [substK, wfT] using ih hwf.2⟩

theorem specRender_cons (seg : Seg) (tm : List Seg) (m : List (List Char × List Char)) :
    specRender (seg :: tm) m = renderSeg m seg ++ specRender tm m := by
  simp [specRender]

theorem specRender_substK (tm : List Seg) (k v : List Char)
    (m : List (List Char × List Char)) :
    specRender tm ((k, v) :: m) = specRender (substK tm k v) m := by
  induction tm with
  | nil => simp [specRender, substK]
  | cons seg tm ih =>
    cases seg with
    | lit s =>
      have hsub : substK (Seg.lit s :: tm) k v = Seg.lit s :: substK tm k v := by
        simp [substK]
      rw [specRender_cons, hsub, specRender_cons, ih]
      simp [renderSeg]
    | ph n =>
      by_cases hkn : n = k
      · subst hkn
        have hsub : substK (Seg.ph n :: tm) n v = Seg.lit v :: substK tm n v := by
          simp [substK]
        rw [specRender_cons, hsub, specRender_cons, ih]
        simp [renderSeg, lookupKV]
      · have hsub : substK (Seg.ph n :: tm) k v = Seg.ph n :: substK tm k v := by
          simp [substK, hkn]
        have hkn' : ¬((k, v).1 = n) := fun h => hkn (by simpa using h.symm)
        rw [specRender_cons, hsub, specRender_cons, ih]
        simp [renderSeg, lookupKV, hkn']

theorem specRender_nil_map (tm : List Seg) : specRender tm [] = flattenT tm := by
  induction tm with
  | nil => simp [specRender, flattenT]
  | cons seg tm ih =>
    cases seg with
    | lit s =>
      simp only [specRender, List.map_cons, List.flatten_cons, renderSeg] at ih ⊢
      rw [ih, flattenT_cons]
      simp [segText]
    | ph n =>
      simp only [specRender, List.map_cons, List.flatten_cons, renderSeg,
        lookupKV, Option.getD_none] at ih ⊢
      rw [ih, flattenT_cons]
      simp [segText]

/-- All keys and values of a replacement map are delimiter-free. -/
def cleanMap (m : List (List Char × List Char)) : Bool :=
  m.all fun kv => kv.1.all cleanChar && kv.2.all cleanChar

theorem process_template_eq_specRender_aux :
    ∀ (m : List (List Char × List Char)) (tm : List Seg), wfT tm = true →
      cleanMap m = true →
      process_template (flattenT tm) m = specRender tm m := by
  intro m
  induction m with
  | nil =>
    intro tm _ _
    simp [process_template, specRender_nil_map]
  | cons kv m ih =>
    intro tm hwf hclean
    simp only [cleanMap, List.all_cons, Bool.and_eq_true] at hclean
    obtain ⟨⟨hk, hv⟩, hm⟩ := hclean
    have hstep : process_template (flattenT tm) (kv :: m)
        = process_template (replaceAll (placeholder kv.1) kv.2 (flattenT tm)) m := by
      simp [process_template]
    rw [hstep, replaceAll_flattenT kv.1 kv.2 hk tm hwf,
      ih (substK tm kv.1 kv.2) (wfT_substK hwf hv) hm,
      ← specRender_substK tm kv.1 kv.2 m]

/-! ## Filesystem model for the Eclipse and Gradle configuration stages

Paths are strings (joined with "/"); `files` maps a path to its current
content, `dirs` lists the directories created.  `open(p, "w")` is
`fsWrite` (create or overwrite); `Path.mkdir(exist_ok=True)` is
`fsMkdir`. -/

structure Fs where
  files : List (String × String)
  dirs : List String
deriving DecidableEq

def fsHasFile (fs : Fs) (p : String) : Bool := fs.files.any (fun e => e.1 == p)

def fsHasDir (fs : Fs) (p : String) : Bool := fs.dirs.any (fun d => d == p)

/-- `Path.exists()`: file or directory. -/
def fsPathExists (fs : Fs) (p : String) : Bool := fsHasFile fs p || fsHasDir fs p

/-- `open(p, "w").write(c)`: overwrite in place when the file exists,
otherwise append a new file entry. -/
def fsWrite (fs : Fs) (p c : String) : Fs :=
  if fsHasFile fs p then
    ⟨fs.files.map (fun e => if e.1 == p then (p, c) else e), fs.dirs⟩
  else ⟨fs.files ++ [(p, c)], fs.dirs⟩

/-- `Path.mkdir(exist_ok=True)` (parent creation elided). -/
def fsMkdir (fs : Fs) (d : String) : Fs :=
  if fsHasDir fs d then fs else ⟨fs.files, fs.dirs ++ [d]⟩

theorem any_key_map_set (p c q : String) (l : List (String × String)) :
    (l.map (fun e => if e.1 == p then (p, c) else e)).any (fun e => e.1 == q)
      = l.any (fun e => e.1 == q) := by
  induction l with
  | nil => rfl
  | cons e l ih =>
    simp only [List.map_cons, List.any_cons]
    rw [ih]
    by_cases he : e.1 = p
    · rw [if_pos (show (e.1 == p) = true by simp [he])]
      simp [he]
    · rw [if_neg (show ¬((e.1 == p) = true) by simp [he])]

theorem fsWrite_dirs (fs : Fs) (p c : String) : (fsWrite fs p c).dirs = fs.dirs := by
  by_cases h : fsHasFile fs p = true <;> simp [fsWrite, h]

theorem fsMkdir_files (fs : Fs) (d : String) : (fsMkdir fs d).files = fs.files := by
  by_cases h : fsHasDir fs d = true <;> simp [fsMkdir, h]

theorem fsHasFile_write (fs : Fs) (p c q : String) :
    fsHasFile (fsWrite fs p c) q = (fsHasFile fs q || q == p) := by
  by_cases h : fsHasFile fs p = true
  · have hL : fsHasFile (fsWrite fs p c) q = fsHasFile fs q := by
      unfold fsWrite
      rw [if_pos h]
      exact any_key_map_set p c q fs.files
    rw [hL]
    by_cases hq : q = p
    · subst hq
      simp [h]
    · rw [beq_eq_false_iff_ne.mpr hq, Bool.or_false]
  · have hL : fsHasFile (fsWrite fs p c) q
        = (fs.files.any (fun e => e.1 == q) || (p == q)) := by
      unfold fsWrite
      rw [if_neg h]
      unfold fsHasFile
      rw [List.any_append]
      simp
    rw [hL]
    by_cases hq : q = p
    · subst hq
      simp only [Bool.not_eq_true] at h
      rw [beq_self_eq_true]
      have : fs.files.any (fun e => e.1 == q) = false := h
      rw [this]
      have hR : fsHasFile fs q = false := h
      rw [hR]
    · rw [beq_eq_false_iff_ne.mpr hq, beq_eq_false_iff_ne.mpr (Ne.symm hq),
        Bool.or_false, Bool.or_false]
      rfl

theorem fsHasDir_mkdir (fs : Fs) (d e : String) :
    fsHasDir (fsMkdir fs d) e = (fsHasDir fs e || e == d) := by
  by_cases h : fsHasDir fs d = true
  · have hL : fsMkdir fs d = fs := by
      unfold fsMkdir
      rw [if_pos h]
    rw [hL]
    by_cases he : e = d
    · subst he
      simp [h]
    · rw [beq_eq_false_iff_ne.mpr he, Bool.or_false]
  · have hL : fsMkdir fs d = ⟨fs.files, fs.dirs ++ [d]⟩ := by
      unfold fsMkdir
      rw [if_neg h]
    rw [hL]
    show (fs.dirs ++ [d]).any (fun x => x == e) = (fsHasDir fs e || e == d)
    rw [List.any_append]
    simp only [List.any_cons, List.any_nil, Bool.or_false]
    by_cases he : e = d
    · subst he
      simp [fsHasDir]
    · rw [beq_eq_false_iff_ne.mpr he, beq_eq_false_iff_ne.mpr (Ne.symm he),
        Bool.or_false, Bool.or_false]
      rfl

theorem fsHasDir_write (fs : Fs) (p c q : String) :
    fsHasDir (fsWrite fs p c) q = fsHasDir fs q := by
  unfold fsHasDir
  rw [fsWrite_dirs]

theorem fsHasFile_mkdir (fs : Fs) (d q : String) :
    fsHasFile (fsMkdir fs d) q = fsHasFile fs q := by
  unfold fsHasFile
  rw [fsMkdir_files]

theorem fsPathExists_write (fs : Fs) (p c q : String) :
    fsPathExists (fsWrite fs p c) q = (fsPathExists fs q || q == p) := by
  simp only [fsPathExists, fsHasFile_write, fsHasDir_write]
  cases fsHasFile fs q <;> cases fsHasDir fs q <;> cases (q == p) <;> rfl

theorem fsPathExists_mkdir (fs : Fs) (d q : String) :
    fsPathExists (fsMkdir fs d) q = (fsPathExists fs q || q == d) := by
  simp only [fsPathExists, fsHasFile_mkdir, fsHasDir_mkdir]
  cases fsHasFile fs q <;> cases fsHasDir fs q <;> cases (q == d) <;> rfl

theorem fsWrite_value (fs : Fs) (p c : String) :
    ∀ e ∈ (fsWrite fs p c).files, e.1 = p → e.2 = c := by
  intro e he hk
  by_cases h : fsHasFile fs p = true
  · have hfiles : (fsWrite fs p c).files
        = fs.files.map (fun e => if e.1 == p then (p, c) else e) := by
      unfold fsWrite
      rw [if_pos h]
    rw [hfiles, List.mem_map] at he
    obtain ⟨e', he', heq⟩ := he
    by_cases hkey : e'.1 = p
    · rw [if_pos (show (e'.1 == p) = true by simp [hkey])] at heq
      rw [← heq]
    · rw [if_neg (show ¬((e'.1 == p) = true) by simp [hkey])] at heq
      subst heq
      exact absurd hk hkey
  · have hfiles : (fsWrite fs p c).files = fs.files ++ [(p, c)] := by
      unfold fsWrite
      rw [if_neg h]
    rw [hfiles, List.mem_append, List.mem_singleton] at he
    rcases he with he | rfl
    · exfalso
      apply h
      unfold fsHasFile
      rw [List.any_eq_true]
      exact ⟨e, he, by simp [hk]⟩
    · rfl

theorem fsWrite_preserve_value (fs : Fs) (p c q v : String) (hne : q ≠ p)
    (hv : ∀ e ∈ fs.files, e.1 = q → e.2 = v) :
    ∀ e ∈ (fsWrite fs p c).files, e.1 = q → e.2 = v := by
  intro e he hk
  by_cases h : fsHasFile fs p = true
  · have hfiles : (fsWrite fs p c).files
        = fs.files.map (fun e => if e.1 == p then (p, c) else e) := by
      unfold fsWrite
      rw [if_pos h]
    rw [hfiles, List.mem_map] at he
    obtain ⟨e', he', heq⟩ := he
    by_cases hkey : e'.1 = p
    · rw [if_pos (show (e'.1 == p) = true by simp [hkey])] at heq
      rw [← heq] at hk
      exact absurd hk.symm hne
    · rw [if_neg (show ¬((e'.1 == p) = true) by simp [hkey])] at heq
      subst heq
      exact hv e' he' hk
  · have hfiles : (fsWrite fs p c).files = fs.files ++ [(p, c)] := by
      unfold fsWrite
      rw [if_neg h]
    rw [hfiles, List.mem_append, List.mem_singleton] at he
    rcases he with he | rfl
    · exact hv e he hk
    · exact absurd hk.symm hne

theorem fsMkdir_preserve_value (fs : Fs) (d q v : String)
    (hv : ∀ e ∈ fs.files, e.1 = q → e.2 = v) :
    ∀ e ∈ (fsMkdir fs d).files, e.1 = q → e.2 = v := by
  intro e he
  rw [fsMkdir_files] at he
  exact hv e he

theorem fsWrite_noop (fs : Fs) (p c : String) (hf : fsHasFile fs p = true)
    (hv : ∀ e ∈ fs.files, e.1 = p → e.2 = c) : fsWrite fs p c = fs := by
  simp only [fsWrite, hf, if_true]
  have hmap : ∀ l : List (String × String), (∀ e ∈ l, e.1 = p → e.2 = c) →
      l.map (fun e => if e.1 == p then (p, c) else e) = l := by
    intro l
    induction l with
    | nil => intro _; rfl
    | cons e l ih =>
      intro hl
      simp only [List.map_cons]
      rw [ih (fun e' he' => hl e' (List.mem_cons_of_mem _ he'))]
      by_cases hkey : e.1 = p
      · have hval : e.2 = c := hl e (List.mem_cons_self _ _) hkey
        obtain ⟨e₁, e₂⟩ := e
        simp only at hkey hval
        simp [hkey, hval]
      · simp [hkey]
  rw [hmap fs.files hv]

theorem fsMkdir_noop (fs : Fs) (d : String) (h : fsHasDir fs d = true) :
    fsMkdir fs d = fs := by
  simp [fsMkdir, h]

/-! ## Eclipse configuration (`eclipse_manager.py`)

Configuration fields consumed by the Eclipse stage (from `config.py`). -/

structure EclipseConfig where
  javaVersion : String
  tomcatVersion : String
  tomcatPort : String
  eclipseWorkspaceName : String
deriving DecidableEq

/-- The `.project` XML written by `generate_project_file` (lines 39-70). -/
def projectXml (projectName : String) : String :=
  "<?xml version=\"1.0\" encoding=\"UTF-8\"?>\n<projectDescription>\n    <name>"
    ++ projectName
    ++ "</name>\n    <comment></comment>\n    <projects>\n    </projects>\n    <buildSpec>\n        <buildCommand>\n            <name>org.eclipse.jdt.core.javabuilder</name>\n            <arguments>\n            </arguments>\n        </buildCommand>\n        <buildCommand>\n            <name>org.eclipse.wst.common.project.facet.core.builder</name>\n            <arguments>\n            </arguments>\n        </buildCommand>\n        <buildCommand>\n            <name>org.eclipse.wst.validation.validationbuilder</name>\n            <arguments>\n            </arguments>\n        </buildCommand>\n    </buildSpec>\n    <natures>\n        <nature>org.eclipse.jem.workbench.JavaEMFNature</nature>\n        <nature>org.eclipse.wst.common.modulecore.ModuleCoreNature</nature>\n        <nature>org.eclipse.jdt.core.javanature</nature>\n        <nature>org.eclipse.wst.common.project.facet.core.nature</nature>\n        <nature>org.eclipse.wst.jsdt.core.jsNature</nature>\n    </natures>\n</projectDescription>\n"

/-- The `.classpath` XML written by `generate_classpath_file` (lines 86-106). -/
def classpathXml (cfg : EclipseConfig) : String :=
  "<?xml version=\"1.0\" encoding=\"UTF-8\"?>\n<classpath>\n    <classpathentry kind=\"src\" output=\"bin/main\" path=\"src/main/java\">\n        <attributes>\n            <attribute name=\"optional\" value=\"true\"/>\n            <attribute name=\"gradle_used_by_scope\" value=\"main,test\"/>\n        </attributes>\n    </classpathentry>\n    <classpathentry kind=\"src\" output=\"bin/test\" path=\"src/test/java\">\n        <attributes>\n            <attribute name=\"optional\" value=\"true\"/>\n            <attribute name=\"gradle_used_by_scope\" value=\"test\"/>\n            <attribute name=\"test\" value=\"true\"/>\n        </attributes>\n    </classpathentry>\n    <classpathentry kind=\"src\" path=\"src/main/resources\"/>\n    <classpathentry kind=\"con\" path=\"org.eclipse.jdt.launching.JRE_CONTAINER/org.eclipse.jdt.internal.debug.ui.launcher.StandardVMType/JavaSE-"
    ++ cfg.javaVersion
    ++ "\"/>\n    <classpathentry kind=\"con\" path=\"org.eclipse.buildship.core.gradleclasspathcontainer\"/>\n    <classpathentry kind=\"output\" path=\"bin/default\"/>\n</classpath>\n"

/-- The `org.eclipse.jdt.core.prefs` content written by `generate_settings`
(lines 121-132). -/
def jdtContent (cfg : EclipseConfig) : String :=
  "eclipse.preferences.version=1\norg.eclipse.jdt.core.compiler.codegen.inlineJsrBytecode=enabled\norg.eclipse.jdt.core.compiler.codegen.targetPlatform="
    ++ cfg.javaVersion
    ++ "\norg.eclipse.jdt.core.compiler.compliance="
    ++ cfg.javaVersion
    ++ "\norg.eclipse.jdt.core.compiler.problem.assertIdentifier=error\norg.eclipse.jdt.core.compiler.problem.enablePreviewFeatures=disabled\norg.eclipse.jdt.core.compiler.problem.enumIdentifier=error\norg.eclipse.jdt.core.compiler.problem.forbiddenReference=warning\norg.eclipse.jdt.core.compiler.problem.reportPreviewFeatures=warning\norg.eclipse.jdt.core.compiler.release=enabled\norg.eclipse.jdt.core.compiler.source="
    ++ cfg.javaVersion
    ++ "\n"

/-- The facet XML written by `generate_settings` (lines 138-146). -/
def facetContent (cfg : EclipseConfig) : String :=
  "<?xml version=\"1.0\" encoding=\"UTF-8\"?>\n<faceted-project>\n  <runtime name=\"Apache Tomcat v"
    ++ cfg.tomcatVersion
    ++ "\"/>\n  <fixed facet=\"wst.jsdt.web\"/>\n  <installed facet=\"java\" version=\""
    ++ cfg.javaVersion
    ++ "\"/>\n  <installed facet=\"jst.web\" version=\"4.0\"/>\n  <installed facet=\"wst.jsdt.web\" version=\"1.0\"/>\n</faceted-project>\n"

/-- The `server.xml` content written by `configure_tomcat_server`
(lines 160-171). -/
def serverContent (cfg : EclipseConfig) : String :=
  "<?xml version=\"1.0\" encoding=\"UTF-8\"?>\n<Server port=\"8005\" shutdown=\"SHUTDOWN\">\n  <Service name=\"Catalina\">\n    <Connector connectionTimeout=\"20000\" port=\""
    ++ cfg.tomcatPort
    ++ "\" \n               protocol=\"HTTP/1.1\" redirectPort=\"8443\"/>\n    <Engine defaultHost=\"localhost\" name=\"Catalina\">\n      <Host appBase=\"webapps\" autoDeploy=\"true\" name=\"localhost\" \n            unpackWARs=\"true\"/>\n    </Engine>\n  </Service>\n</Server>\n"

def projectFilePath (projectPath : String) : String := projectPath ++ "/.project"

def classpathFilePath (projectPath : String) : String := projectPath ++ "/.classpath"

def settingsDir (projectPath : String) : String := projectPath ++ "/.settings"

def jdtPrefsPath (projectPath : String) : String :=
  settingsDir projectPath ++ "/org.eclipse.jdt.core.prefs"

def facetPath (projectPath : String) : String :=
  settingsDir projectPath ++ "/org.eclipse.wst.common.project.facet.core.xml"

def serversDir (eclipseWorkspace : String) : String := eclipseWorkspace ++ "/Servers"

def serverXmlPath (eclipseWorkspace : String) : String :=
  serversDir eclipseWorkspace ++ "/server.xml"

/-- `EclipseManager.generate_project_file` (lines 31-76): create-if-absent,
returns the updated filesystem and the list of paths written. -/
def generate_project_file (fs : Fs) (projectPath projectName : String) :
    Fs × List String :=
  let p := projectFilePath projectPath
  if fsPathExists fs p then (fs, [])
  else (fsWrite fs p (projectXml projectName), [p])

/-- `EclipseManager.generate_classpath_file` (lines 78-112): create-if-absent. -/
def generate_classpath_file (cfg : EclipseConfig) (fs : Fs) (projectPath : String) :
    Fs × List String :=
  let p := classpathFilePath projectPath
  if fsPathExists fs p then (fs, [])
  else (fsWrite fs p (classpathXml cfg), [p])

/-- `EclipseManager.generate_settings` (lines 114-151): creates the
`.settings` directory, then writes both preference files unconditionally
(no existence check in the source). -/
def generate_settings (cfg : EclipseConfig) (fs : Fs) (projectPath : String) :
    Fs × List String :=
  let fs₁ := fsMkdir fs (settingsDir projectPath)
  let fs₂ := fsWrite fs₁ (jdtPrefsPath projectPath) (jdtContent cfg)
  let fs₃ := fsWrite fs₂ (facetPath projectPath) (facetContent cfg)
  (fs₃, [jdtPrefsPath projectPath, facetPath projectPath])

/-- `EclipseManager.create_eclipse_workspace` (lines 19-29). -/
def create_eclipse_workspace (cfg : EclipseConfig) (fs : Fs) (workspacePath : String) :
    Fs × String :=
  let ews := workspacePath ++ "/" ++ cfg.eclipseWorkspaceName
  let fs₁ := fsMkdir fs ews
  let fs₂ := fsMkdir fs₁ (ews ++ "/.metadata")
  (fs₂, ews)

/-- `EclipseManager.configure_tomcat_server` (lines 153-176): writes
`Servers/server.xml` unconditionally. -/
def configure_tomcat_server (cfg : EclipseConfig) (fs : Fs) (eclipseWorkspace : String) :
    Fs × List String :=
  let fs₁ := fsMkdir fs (serversDir eclipseWorkspace)
  let fs₂ := fsWrite fs₁ (serverXmlPath eclipseWorkspace) (serverContent cfg)
  (fs₂, [serverXmlPath eclipseWorkspace])

/-- Return value of `setup_project`: the bare `False` of line 185, or the
`(True, eclipse_workspace)` tuple of line 199. -/
inductive EclipseRet where
  | retFalse
  | okPair (eclipseWorkspace : String)
deriving DecidableEq

structure SetupOut where
  ret : EclipseRet
  fs : Fs
  writes : List String
deriving DecidableEq

/-- Lines 187-199 of `setup_project`: generate the project files, the
Eclipse workspace and the Tomcat server config. -/
def setup_project_body (cfg : EclipseConfig) (fs : Fs) (workspacePath repoName : String) :
    SetupOut :=
  let projectPath := workspacePath ++ "/" ++ repoName
  let g₁ := generate_project_file fs projectPath repoName
  let g₂ := generate_classpath_file cfg g₁.1 projectPath
  let g₃ := generate_settings cfg g₂.1 projectPath
  let w := create_eclipse_workspace cfg g₃.1 workspacePath
  let g₄ := configure_tomcat_server cfg w.1 w.2
  ⟨EclipseRet.okPair w.2, g₄.1, g₁.2 ++ g₂.2 ++ g₃.2 ++ g₄.2⟩

/-- `EclipseManager.setup_project` (lines 178-199): bail out with a bare
`False` when the project path does not exist, otherwise generate the
project files, the Eclipse workspace and the Tomcat server config and
return `(True, eclipse_workspace)`. -/
def setup_project (cfg : EclipseConfig) (fs : Fs) (workspacePath repoName : String) :
    SetupOut :=
  if fsPathExists fs (workspacePath ++ "/" ++ repoName) = false then
    ⟨EclipseRet.retFalse, fs, []⟩
  else setup_project_body cfg fs workspacePath repoName

theorem append_left_cancel_str {x s t : String} (h : x ++ s = x ++ t) : s = t := by
  have hd := congrArg String.data h
  simp only [String.data_append] at hd
  have h2 := List.append_cancel_left hd
  cases s
  cases t
  exact congrArg String.mk h2

theorem append_ne_of_ne_suffix {x y s t : String} (hlen : s.length = t.length)
    (hne : s ≠ t) : x ++ s ≠ y ++ t := by
  intro h
  apply hne
  have hd : x.data ++ s.data = y.data ++ t.data := by
    have h2 := congrArg String.data h
    simpa [String.data_append] using h2
  have hlen' : s.data.length = t.data.length := hlen
  have h3 := (List.append_inj' hd hlen').2
  cases s
  cases t
  exact congrArg String.mk h3

theorem jdtPrefs_ne_facet (p : String) : jdtPrefsPath p ≠ facetPath p := by
  intro h
  unfold jdtPrefsPath facetPath at h
  exact absurd (append_left_cancel_str h) (by decide)

theorem jdtPrefs_ne_serverXml (p e : String) : jdtPrefsPath p ≠ serverXmlPath e := by
  have h1 : jdtPrefsPath p = (p ++ "/.settings/org.eclipse.jdt.core.p") ++ "refs" := by
    unfold jdtPrefsPath settingsDir
    rw [String.append_assoc]
    have hx : ("/.settings" ++ "/org.eclipse.jdt.core.prefs" : String)
        = "/.settings/org.eclipse.jdt.core.p" ++ "refs" := by decide
    rw [hx, ← String.append_assoc]
  have h2 : serverXmlPath e = (e ++ "/Servers/server") ++ ".xml" := by
    unfold serverXmlPath serversDir
    rw [String.append_assoc]
    have hx : ("/Servers" ++ "/server.xml" : String) = "/Servers/server" ++ ".xml" := by
      decide
    rw [hx, ← String.append_assoc]
  rw [h1, h2]
  exact append_ne_of_ne_suffix (by decide) (by decide)

theorem facet_ne_serverXml (p e : String) : facetPath p ≠ serverXmlPath e := by
  have h1 : facetPath p
      = (p ++ "/.settings/org.eclipse.wst.common.project.face") ++ "t.core.xml" := by
    unfold facetPath settingsDir
    rw [String.append_assoc]
    have hx : ("/.settings" ++ "/org.eclipse.wst.common.project.facet.core.xml" : String)
        = "/.settings/org.eclipse.wst.common.project.face" ++ "t.core.xml" := by decide
    rw [hx, ← String.append_assoc]
  have h2 : serverXmlPath e = (e ++ "/Servers/") ++ "server.xml" := by
    unfold serverXmlPath serversDir
    rw [String.append_assoc]
    have hx : ("/Servers" ++ "/server.xml" : String) = "/Servers/" ++ "server.xml" := by
      decide
    rw [hx, ← String.append_assoc]
  rw [h1, h2]
  exact append_ne_of_ne_suffix (by decide) (by decide)

/-- Content invariant: every file entry at path `p` holds content `c`. -/
def fsValueAt (fs : Fs) (p c : String) : Prop :=
  ∀ e ∈ fs.files, e.1 = p → e.2 = c

theorem fsPathExists_mono_write {fs : Fs} {q : String} (p c : String)
    (h : fsPathExists fs q = true) : fsPathExists (fsWrite fs p c) q = true := by
  rw [fsPathExists_write, h]
  rfl

theorem fsPathExists_mono_mkdir {fs : Fs} {q : String} (d : String)
    (h : fsPathExists fs q = true) : fsPathExists (fsMkdir fs d) q = true := by
  rw [fsPathExists_mkdir, h]
  rfl

theorem fsHasFile_mono_write {fs : Fs} {q : String} (p c : String)
    (h : fsHasFile fs q = true) : fsHasFile (fsWrite fs p c) q = true := by
  rw [fsHasFile_write, h]
  rfl

theorem fsHasFile_write_self (fs : Fs) (p c : String) :
    fsHasFile (fsWrite fs p c) p = true := by
  rw [fsHasFile_write]
  simp

theorem fsHasDir_mkdir_self (fs : Fs) (d : String) :
    fsHasDir (fsMkdir fs d) d = true := by
  rw [fsHasDir_mkdir]
  simp

theorem fsHasDir_mono_mkdir {fs : Fs} {q : String} (d : String)
    (h : fsHasDir fs q = true) : fsHasDir (fsMkdir fs d) q = true := by
  rw [fsHasDir_mkdir, h]
  rfl

theorem fsValueAt_write_self (fs : Fs) (p c : String) :
    fsValueAt (fsWrite fs p c) p c := fsWrite_value fs p c

theorem fsValueAt_write_other {fs : Fs} {q v : String} (p c : String) (hne : q ≠ p)
    (h : fsValueAt fs q v) : fsValueAt (fsWrite fs p c) q v :=
  fsWrite_preserve_value fs p c q v hne h

theorem fsValueAt_mkdir {fs : Fs} {q v : String} (d : String)
    (h : fsValueAt fs q v) : fsValueAt (fsMkdir fs d) q v :=
  fsMkdir_preserve_value fs d q v h

theorem generate_project_file_mono (fs : Fs) (proj name q : String)
    (h : fsPathExists fs q = true) :
    fsPathExists (generate_project_file fs proj name).1 q = true := by
  unfold generate_project_file
  by_cases hex : fsPathExists fs (projectFilePath proj) = true
  · rw [if_pos hex]
    exact h
  · rw [if_neg hex]
    exact fsPathExists_mono_write _ _ h

theorem generate_project_file_creates (fs : Fs) (proj name : String) :
    fsPathExists (generate_project_file fs proj name).1 (projectFilePath proj) = true := by
  unfold generate_project_file
  by_cases hex : fsPathExists fs (projectFilePath proj) = true
  · rw [if_pos hex]
    exact hex
  · rw [if_neg hex]
    rw [fsPathExists_write]
    simp

theorem generate_project_file_skip (fs : Fs) (proj name : String)
    (h : fsPathExists fs (projectFilePath proj) = true) :
    generate_project_file fs proj name = (fs, []) := by
  unfold generate_project_file
  rw [if_pos h]

theorem generate_classpath_file_mono (cfg : EclipseConfig) (fs : Fs) (proj q : String)
    (h : fsPathExists fs q = true) :
    fsPathExists (generate_classpath_file cfg fs proj).1 q = true := by
  unfold generate_classpath_file
  by_cases hex : fsPathExists fs (classpathFilePath proj) = true
  · rw [if_pos hex]
    exact h
  · rw [if_neg hex]
    exact fsPathExists_mono_write _ _ h

theorem generate_classpath_file_creates (cfg : EclipseConfig) (fs : Fs) (proj : String) :
    fsPathExists (generate_classpath_file cfg fs proj).1 (classpathFilePath proj)
      = true := by
  unfold generate_classpath_file
  by_cases hex : fsPathExists fs (classpathFilePath proj) = true
  · rw [if_pos hex]
    exact hex
  · rw [if_neg hex]
    rw [fsPathExists_write]
    simp

theorem generate_classpath_file_skip (cfg : EclipseConfig) (fs : Fs) (proj : String)
    (h : fsPathExists fs (classpathFilePath proj) = true) :
    generate_classpath_file cfg fs proj = (fs, []) := by
  unfold generate_classpath_file
  rw [if_pos h]

theorem generate_settings_facts (cfg : EclipseConfig) (fs : Fs) (proj : String) :
    let g := generate_settings cfg fs proj
    (∀ q, fsPathExists fs q = true → fsPathExists g.1 q = true) ∧
    fsHasDir g.1 (settingsDir proj) = true ∧
    fsHasFile g.1 (jdtPrefsPath proj) = true ∧
    fsValueAt g.1 (jdtPrefsPath proj) (jdtContent cfg) ∧
    fsHasFile g.1 (facetPath proj) = true ∧
    fsValueAt g.1 (facetPath proj) (facetContent cfg) := by
  intro g
  have hmono : ∀ q, fsPathExists fs q = true → fsPathExists g.1 q = true := by
    intro q h
    exact fsPathExists_mono_write _ _ (fsPathExists_mono_write _ _
      (fsPathExists_mono_mkdir _ h))
  refine ⟨hmono, ?_, ?_, ?_, ?_, ?_⟩
  · show fsHasDir (fsWrite (fsWrite (fsMkdir fs _) _ _) _ _) _ = true
    rw [fsHasDir_write, fsHasDir_write]
    exact fsHasDir_mkdir_self fs _
  · show fsHasFile (fsWrite (fsWrite (fsMkdir fs _) _ _) _ _) _ = true
    exact fsHasFile_mono_write _ _ (fsHasFile_write_self _ _ _)
  · exact fsValueAt_write_other _ _ (jdtPrefs_ne_facet proj)
      (fsValueAt_write_self _ _ _)
  · exact fsHasFile_write_self _ _ _
  · exact fsValueAt_write_self _ _ _

theorem fsHasFile_of_files_eq {fs fs' : Fs} (h : fs'.files = fs.files) (q : String) :
    fsHasFile fs' q = fsHasFile fs q := by
  unfold fsHasFile
  rw [h]

theorem fsValueAt_of_files_eq {fs fs' : Fs} (h : fs'.files = fs.files) {q v : String}
    (hv : fsValueAt fs q v) : fsValueAt fs' q v := by
  intro e he
  rw [h] at he
  exact hv e he

theorem generate_settings_noop (cfg : EclipseConfig) (fs : Fs) (proj : String)
    (hdir : fsHasDir fs (settingsDir proj) = true)
    (hjf : fsHasFile fs (jdtPrefsPath proj) = true)
    (hjv : fsValueAt fs (jdtPrefsPath proj) (jdtContent cfg))
    (hff : fsHasFile fs (facetPath proj) = true)
    (hfv : fsValueAt fs (facetPath proj) (facetContent cfg)) :
    generate_settings cfg fs proj = (fs, [jdtPrefsPath proj, facetPath proj]) := by
  show (fsWrite (fsWrite (fsMkdir fs (settingsDir proj)) (jdtPrefsPath proj)
      (jdtContent cfg)) (facetPath proj) (facetContent cfg),
    [jdtPrefsPath proj, facetPath proj]) = (fs, [jdtPrefsPath proj, facetPath proj])
  rw [fsMkdir_noop fs _ hdir, fsWrite_noop fs _ _ hjf hjv, fsWrite_noop fs _ _ hff hfv]

theorem create_eclipse_workspace_facts (cfg : EclipseConfig) (fs : Fs) (ws : String) :
    let w := create_eclipse_workspace cfg fs ws
    w.2 = ws ++ "/" ++ cfg.eclipseWorkspaceName ∧
    (∀ q, fsPathExists fs q = true → fsPathExists w.1 q = true) ∧
    fsHasDir w.1 w.2 = true ∧
    fsHasDir w.1 (w.2 ++ "/.metadata") = true ∧
    w.1.files = fs.files ∧
    (∀ q, fsHasDir fs q = true → fsHasDir w.1 q = true) := by
  intro w
  refine ⟨rfl, ?_, ?_, ?_, ?_, ?_⟩
  · intro q h
    exact fsPathExists_mono_mkdir _ (fsPathExists_mono_mkdir _ h)
  · exact fsHasDir_mono_mkdir _ (fsHasDir_mkdir_self _ _)
  · exact fsHasDir_mkdir_self _ _
  · show (fsMkdir (fsMkdir fs _) _).files = fs.files
    rw [fsMkdir_files, fsMkdir_files]
  · intro q h
    exact fsHasDir_mono_mkdir _ (fsHasDir_mono_mkdir _ h)

theorem create_eclipse_workspace_noop (cfg : EclipseConfig) (fs : Fs) (ws : String)
    (h1 : fsHasDir fs (ws ++ "/" ++ cfg.eclipseWorkspaceName) = true)
    (h2 : fsHasDir fs (ws ++ "/" ++ cfg.eclipseWorkspaceName ++ "/.metadata") = true) :
    create_eclipse_workspace cfg fs ws = (fs, ws ++ "/" ++ cfg.eclipseWorkspaceName) := by
  show (fsMkdir (fsMkdir fs (ws ++ "/" ++ cfg.eclipseWorkspaceName))
      (ws ++ "/" ++ cfg.eclipseWorkspaceName ++ "/.metadata"),
    ws ++ "/" ++ cfg.eclipseWorkspaceName) = (fs, ws ++ "/" ++ cfg.eclipseWorkspaceName)
  rw [fsMkdir_noop fs _ h1, fsMkdir_noop fs _ h2]

theorem configure_tomcat_server_facts (cfg : EclipseConfig) (fs : Fs) (e : String) :
    let t := configure_tomcat_server cfg fs e
    (∀ q, fsPathExists fs q = true → fsPathExists t.1 q = true) ∧
    fsHasDir t.1 (serversDir e) = true ∧
    fsHasFile t.1 (serverXmlPath e) = true ∧
    fsValueAt t.1 (serverXmlPath e) (serverContent cfg) ∧
    (∀ q v, q ≠ serverXmlPath e → fsValueAt fs q v → fsValueAt t.1 q v) ∧
    (∀ q, fsHasFile fs q = true → fsHasFile t.1 q = true) ∧
    (∀ q, fsHasDir fs q = true → fsHasDir t.1 q = true) := by
  intro t
  refine ⟨?_, ?_, ?_, ?_, ?_, ?_, ?_⟩
  · intro q h
    exact fsPathExists_mono_write _ _ (fsPathExists_mono_mkdir _ h)
  · show fsHasDir (fsWrite (fsMkdir fs _) _ _) _ = true
    rw [fsHasDir_write]
    exact fsHasDir_mkdir_self _ _
  · exact fsHasFile_write_self _ _ _
  · exact fsValueAt_write_self _ _ _
  · intro q v hne hv
    exact fsValueAt_write_other _ _ hne (fsValueAt_mkdir _ hv)
  · intro q h
    refine fsHasFile_mono_write _ _ ?_
    rw [fsHasFile_mkdir]
    exact h
  · intro q h
    show fsHasDir (fsWrite (fsMkdir fs _) _ _) q = true
    rw [fsHasDir_write]
    exact fsHasDir_mono_mkdir _ h

theorem configure_tomcat_server_noop (cfg : EclipseConfig) (fs : Fs) (e : String)
    (hdir : fsHasDir fs (serversDir e) = true)
    (hf : fsHasFile fs (serverXmlPath e) = true)
    (hv : fsValueAt fs (serverXmlPath e) (serverContent cfg)) :
    configure_tomcat_server cfg fs e = (fs, [serverXmlPath e]) := by
  show (fsWrite (fsMkdir fs (serversDir e)) (serverXmlPath e) (serverContent cfg),
    [serverXmlPath e]) = (fs, [serverXmlPath e])
  rw [fsMkdir_noop fs _ hdir, fsWrite_noop fs _ _ hf hv]

/-- State facts guaranteed after a successful `setup_project` run. -/
def SetupPost (cfg : EclipseConfig) (r : SetupOut) (ws repo : String) : Prop :=
  r.ret = EclipseRet.okPair (ws ++ "/" ++ cfg.eclipseWorkspaceName) ∧
  fsPathExists r.fs (ws ++ "/" ++ repo) = true ∧
  fsPathExists r.fs (projectFilePath (ws ++ "/" ++ repo)) = true ∧
  fsPathExists r.fs (classpathFilePath (ws ++ "/" ++ repo)) = true ∧
  fsHasDir r.fs (settingsDir (ws ++ "/" ++ repo)) = true ∧
  fsHasFile r.fs (jdtPrefsPath (ws ++ "/" ++ repo)) = true ∧
  fsValueAt r.fs (jdtPrefsPath (ws ++ "/" ++ repo)) (jdtContent cfg) ∧
  fsHasFile r.fs (facetPath (ws ++ "/" ++ repo)) = true ∧
  fsValueAt r.fs (facetPath (ws ++ "/" ++ repo)) (facetContent cfg) ∧
  fsHasDir r.fs (ws ++ "/" ++ cfg.eclipseWorkspaceName) = true ∧
  fsHasDir r.fs (ws ++ "/" ++ cfg.eclipseWorkspaceName ++ "/.metadata") = true ∧
  fsHasDir r.fs (serversDir (ws ++ "/" ++ cfg.eclipseWorkspaceName)) = true ∧
  fsHasFile r.fs (serverXmlPath (ws ++ "/" ++ cfg.eclipseWorkspaceName)) = true ∧
  fsValueAt r.fs (serverXmlPath (ws ++ "/" ++ cfg.eclipseWorkspaceName)) (serverContent cfg)

set_option maxHeartbeats 1000000 in
theorem setup_project_body_post (cfg : EclipseConfig) (fs : Fs) (ws repo : String)
    (hproj : fsPathExists fs (ws ++ "/" ++ repo) = true) :
    SetupPost cfg (setup_project_body cfg fs ws repo) ws repo := by
  set proj := ws ++ "/" ++ repo with hprojdef
  set g1 := generate_project_file fs proj repo with hg1
  set g2 := generate_classpath_file cfg g1.1 proj with hg2
  set g3 := generate_settings cfg g2.1 proj with hg3
  set w := create_eclipse_workspace cfg g3.1 ws with hw
  set t := configure_tomcat_server cfg w.1 w.2 with ht
  unfold SetupPost
  simp only [setup_project_body]
  rw [← hprojdef, ← hg1, ← hg2, ← hg3, ← hw, ← ht]
  obtain ⟨hsm, hsd, hsjf, hsjv, hsff, hsfv⟩ := generate_settings_facts cfg g2.1 proj
  obtain ⟨hw2, hwm, hwd1, hwd2, hwfiles, hwdmono⟩ :=
    create_eclipse_workspace_facts cfg g3.1 ws
  obtain ⟨htm, htd, htf, htv, htpv, htfm, htdm⟩ :=
    configure_tomcat_server_facts cfg w.1 w.2
  rw [← hg3] at hsm hsd hsjf hsjv hsff hsfv
  rw [← hw] at hwm hwd1 hwd2 hwfiles hwdmono hw2
  rw [← ht] at htm htd htf htv htpv htfm htdm
  rw [← hw2]
  have h1 : fsPathExists g1.1 proj = true := by
    rw [hg1]
    exact generate_project_file_mono fs proj repo proj hproj
  have h2 : fsPathExists g2.1 proj = true := by
    rw [hg2]
    exact generate_classpath_file_mono cfg g1.1 proj proj h1
  have hpf : fsPathExists g2.1 (projectFilePath proj) = true := by
    rw [hg2]
    refine generate_classpath_file_mono cfg g1.1 proj _ ?_
    rw [hg1]
    exact generate_project_file_creates fs proj repo
  have hcf : fsPathExists g2.1 (classpathFilePath proj) = true := by
    rw [hg2]
    exact generate_classpath_file_creates cfg g1.1 proj
  refine ⟨rfl, ?_, ?_, ?_, ?_, ?_, ?_, ?_, ?_, ?_, ?_, ?_, ?_, ?_⟩
  · exact htm _ (hwm _ (hsm _ h2))
  · exact htm _ (hwm _ (hsm _ hpf))
  · exact htm _ (hwm _ (hsm _ hcf))
  · exact htdm _ (hwdmono _ hsd)
  · refine htfm _ ?_
    rw [fsHasFile_of_files_eq hwfiles]
    exact hsjf
  · refine htpv _ _ ?_ (fsValueAt_of_files_eq hwfiles hsjv)
    rw [hw2]
    exact jdtPrefs_ne_serverXml _ _
  · refine htfm _ ?_
    rw [fsHasFile_of_files_eq hwfiles]
    exact hsff
  · refine htpv _ _ ?_ (fsValueAt_of_files_eq hwfiles hsfv)
    rw [hw2]
    exact facet_ne_serverXml _ _
  · exact htdm _ hwd1
  · exact htdm _ hwd2
  · exact htd
  · exact htf
  · exact htv

theorem setup_project_of_exists (cfg : EclipseConfig) (fs : Fs) (ws repo : String)
    (hproj : fsPathExists fs (ws ++ "/" ++ repo) = true) :
    setup_project cfg fs ws repo = setup_project_body cfg fs ws repo := by
  unfold setup_project
  rw [if_neg (by rw [hproj]; simp)]

theorem setup_project_post (cfg : EclipseConfig) (fs : Fs) (ws repo : String)
    (hproj : fsPathExists fs (ws ++ "/" ++ repo) = true) :
    SetupPost cfg (setup_project cfg fs ws repo) ws repo := by
  rw [setup_project_of_exists cfg fs ws repo hproj]
  exact setup_project_body_post cfg fs ws repo hproj

theorem projectFilePath_eq (p : String) :
    projectFilePath p = (p ++ "/.pro") ++ "ject" := by
  unfold projectFilePath
  rw [String.append_assoc]
  rfl

theorem classpathFilePath_eq (p : String) :
    classpathFilePath p = (p ++ "/.class") ++ "path" := by
  unfold classpathFilePath
  rw [String.append_assoc]
  rfl

theorem jdtPrefsPath_eq (p : String) :
    jdtPrefsPath p = (p ++ "/.settings/org.eclipse.jdt.core.p") ++ "refs" := by
  unfold jdtPrefsPath settingsDir
  rw [String.append_assoc]
  have hx : ("/.settings" ++ "/org.eclipse.jdt.core.prefs" : String)
      = "/.settings/org.eclipse.jdt.core.p" ++ "refs" := by decide
  rw [hx, ← String.append_assoc]

theorem facetPath_eq (p : String) :
    facetPath p
      = (p ++ "/.settings/org.eclipse.wst.common.project.facet.core") ++ ".xml" := by
  unfold facetPath settingsDir
  rw [String.append_assoc]
  have hx : ("/.settings" ++ "/org.eclipse.wst.common.project.facet.core.xml" : String)
      = "/.settings/org.eclipse.wst.common.project.facet.core" ++ ".xml" := by decide
  rw [hx, ← String.append_assoc]

theorem serverXmlPath_eq (e : String) :
    serverXmlPath e = (e ++ "/Servers/server") ++ ".xml" := by
  unfold serverXmlPath serversDir
  rw [String.append_assoc]
  have hx : ("/Servers" ++ "/server.xml" : String) = "/Servers/server" ++ ".xml" := by
    decide
  rw [hx, ← String.append_assoc]

theorem projectFile_ne_jdt (p q : String) : projectFilePath p ≠ jdtPrefsPath q := by
  rw [projectFilePath_eq, jdtPrefsPath_eq]
  exact append_ne_of_ne_suffix (by decide) (by decide)

theorem projectFile_ne_facet (p q : String) : projectFilePath p ≠ facetPath q := by
  rw [projectFilePath_eq, facetPath_eq]
  exact append_ne_of_ne_suffix (by decide) (by decide)

theorem projectFile_ne_server (p e : String) : projectFilePath p ≠ serverXmlPath e := by
  rw [projectFilePath_eq, serverXmlPath_eq]
  exact append_ne_of_ne_suffix (by decide) (by decide)

theorem classpathFile_ne_jdt (p q : String) : classpathFilePath p ≠ jdtPrefsPath q := by
  rw [classpathFilePath_eq, jdtPrefsPath_eq]
  exact append_ne_of_ne_suffix (by decide) (by decide)

theorem classpathFile_ne_facet (p q : String) : classpathFilePath p ≠ facetPath q := by
  rw [classpathFilePath_eq, facetPath_eq]
  exact append_ne_of_ne_suffix (by decide) (by decide)

theorem classpathFile_ne_server (p e : String) : classpathFilePath p ≠ serverXmlPath e := by
  rw [classpathFilePath_eq, serverXmlPath_eq]
  exact append_ne_of_ne_suffix (by decide) (by decide)

set_option maxHeartbeats 1000000 in
theorem setup_project_idem (cfg : EclipseConfig) (fs : Fs) (ws repo : String)
    (hproj : fsPathExists fs (ws ++ "/" ++ repo) = true) :
    setup_project cfg (setup_project cfg fs ws repo).fs ws repo
      = ⟨EclipseRet.okPair (ws ++ "/" ++ cfg.eclipseWorkspaceName),
         (setup_project cfg fs ws repo).fs,
         [jdtPrefsPath (ws ++ "/" ++ repo), facetPath (ws ++ "/" ++ repo),
          serverXmlPath (ws ++ "/" ++ cfg.eclipseWorkspaceName)]⟩ := by
  obtain ⟨hret, hpe, hpf, hcf, hsd, hjf, hjv, hff, hfv, hd1, hd2, hd3, hsf, hsv⟩ :=
    setup_project_post cfg fs ws repo hproj
  set r1fs := (setup_project cfg fs ws repo).fs with hr1
  rw [setup_project_of_exists cfg r1fs ws repo hpe]
  have s1 : generate_project_file r1fs (ws ++ "/" ++ repo) repo = (r1fs, []) :=
    generate_project_file_skip r1fs _ repo hpf
  have s2 : generate_classpath_file cfg r1fs (ws ++ "/" ++ repo) = (r1fs, []) :=
    generate_classpath_file_skip cfg r1fs _ hcf
  have s3 : generate_settings cfg r1fs (ws ++ "/" ++ repo)
      = (r1fs, [jdtPrefsPath (ws ++ "/" ++ repo), facetPath (ws ++ "/" ++ repo)]) :=
    generate_settings_noop cfg r1fs _ hsd hjf hjv hff hfv
  have s4 : create_eclipse_workspace cfg r1fs ws
      = (r1fs, ws ++ "/" ++ cfg.eclipseWorkspaceName) :=
    create_eclipse_workspace_noop cfg r1fs ws hd1 hd2
  have s5 : configure_tomcat_server cfg r1fs (ws ++ "/" ++ cfg.eclipseWorkspaceName)
      = (r1fs, [serverXmlPath (ws ++ "/" ++ cfg.eclipseWorkspaceName)]) :=
    configure_tomcat_server_noop cfg r1fs _ hd3 hsf hsv
  simp only [setup_project_body, s1, s2, s3, s4, s5]
  simp

/-! ## Gradle configuration (`build_manager.py`)

Text content is `List Char`; the three `re` operations of
`configure_build_gradle` are passed in as oracle functions (their regex
semantics are opaque here), everything else is modelled concretely. -/

/-- `str.strip()` returning a `String`. -/
def pyStripS (s : String) : String := String.mk (pyStrip s.data)

/-- `s.startswith(pre)`. -/
def pyStartsWith (s pre : String) : Bool := pre.data.isPrefixOf s.data

/-- `'pat' in s` (substring containment). -/
def containsSub : List Char → List Char → Bool
  | [], pat => pat.isPrefixOf []
  | c :: cs, pat => pat.isPrefixOf (c :: cs) || containsSub cs pat

/-- Split off the text before and after the first occurrence of `pat`. -/
def splitOnce (pat : List Char) : List Char → Option (List Char × List Char)
  | [] => if pat.isPrefixOf [] then some ([], []) else none
  | c :: cs =>
    if pat.isPrefixOf (c :: cs) then some ([], (c :: cs).drop pat.length)
    else (splitOnce pat cs).map (fun r => (c :: r.1, r.2))

/-- `s.split(pat)` for nonempty `pat` (fuel bounds the number of splits;
`s.length + 1` always suffices since each split consumes at least one
character). -/
def pySplitAux (pat : List Char) : Nat → List Char → List (List Char)
  | 0, s => [s]
  | fuel + 1, s =>
    match splitOnce pat s with
    | none => [s]
    | some (a, rest) => a :: pySplitAux pat fuel rest

def pySplitAll (s pat : List Char) : List (List Char) := pySplitAux pat (s.length + 1) s

def testMark : List Char := ("test \x7b").data

def sourceSetsMark : List Char := ("sourceSets").data

def eclipseMark : List Char := ("eclipse \x7b").data

def commentOpenMark : List Char := ("/*").data

/-- The `eclipse_block` literal inserted by `configure_build_gradle`
(line 222). -/
def eclipseBlockText : List Char :=
  ("\neclipse \x7b\n    classpath \x7b\n        // This removes the \x27Web App Libraries\x27 container from the build path\n        // so only Gradle dependencies are used for compilation\n        containers.remove(\x27org.eclipse.jst.j2ee.internal.web.container\x27)\n    \x7d\n\x7d\n").data

/-- `content[:pos] ++ block ++ content[pos:]` (insertion at `match.end()`). -/
def insertAt (s : List Char) (pos : Nat) (block : List Char) : List Char :=
  s.take pos ++ block ++ s.drop pos

structure BuildGradleResult where
  content : Option (List Char)
  ok : Bool
  msg : String
  insertedBlock : Bool
deriving DecidableEq

/-- Phase 1 of `configure_build_gradle` (lines 191-210): comment out the
test sourceSets block.  `searchP1` models `re.search` of the
already-commented pattern, `subP2` models the `re.sub` that wraps the test
block in comment markers.  `none` models the `IndexError` raised by
`content.split('sourceSets')[1]` when `sourceSets` does not occur.
Returns the new content and the `modified` flag. -/
def bgPhase1 (searchP1 : List Char → Bool) (subP2 : List Char → List Char)
    (c0 : List Char) : Option (List Char × Bool) :=
  if containsSub c0 testMark then
    match (pySplitAll c0 sourceSetsMark).get? 1 with
    | none => none
    | some seg1 =>
      let region := (pySplitAll seg1 testMark).headD []
      if !(containsSub region commentOpenMark) then
        if searchP1 c0 then some (c0, false)
        else some (subP2 c0, decide (subP2 c0 ≠ c0))
      else some (c0, false)
  else some (c0, false)

/-- Phase 2 of `configure_build_gradle` (lines 212-240): insert the
eclipse block after the sourceSets block when no `eclipse` block is
present.  `endP3` models `match.end()` of the sourceSets-block regex. -/
def bgPhase2 (endP3 : List Char → Option Nat) (c : List Char) (modified : Bool) :
    BuildGradleResult :=
  if containsSub c eclipseMark then
    ⟨some c, true,
      if modified then "Updated build.gradle successfully"
      else "build.gradle already configured correctly", false⟩
  else
    match endP3 c with
    | some pos =>
      ⟨some (insertAt c pos eclipseBlockText), true, "Updated build.gradle successfully",
        true⟩
    | none =>
      ⟨some c, true,
        if modified then "Updated build.gradle successfully"
        else "build.gradle already configured correctly", false⟩

/-- `BuildManager.configure_build_gradle` (lines 177-245). -/
def configure_build_gradle (searchP1 : List Char → Bool)
    (subP2 : List Char → List Char) (endP3 : List Char → Option Nat)
    (content? : Option (List Char)) : BuildGradleResult :=
  match content? with
  | none => ⟨none, false, "build.gradle not found", false⟩
  | some c0 =>
    match bgPhase1 searchP1 subP2 c0 with
    | none => ⟨some c0, false, "Failed to update build.gradle: list index out of range", false⟩
    | some (c, modified) => bgPhase2 endP3 c modified

def gradleJavaHomeKey : String := "org.gradle.java.home"

def gradleJavaHomeLine (javaPath : String) : String :=
  "org.gradle.java.home=" ++ javaPath

/-- The line-replacement loop of `configure_gradle_properties`
(lines 149-160): replace the first line whose stripped form starts with
the key (or its commented form) and report whether a replacement
happened.  `javaPath` is `config.java_home` with backslashes already
converted to forward slashes (line 146). -/
def updateJavaHomeLines (javaPath : String) : List String → List String × Bool
  | [] => ([], false)
  | l :: ls =>
    if pyStartsWith (pyStripS l) gradleJavaHomeKey then
      (gradleJavaHomeLine javaPath :: ls, true)
    else if pyStartsWith (pyStripS l) ("# " ++ gradleJavaHomeKey) then
      (gradleJavaHomeLine javaPath :: ls, true)
    else
      let r := updateJavaHomeLines javaPath ls
      (l :: r.1, r.2)

/-- `BuildManager.configure_gradle_properties` (lines 133-175), on the
list of lines of `gradle.properties` (line terminators elided): update or
insert the `org.gradle.java.home` property. -/
def configure_gradle_properties (lines : List String) (javaPath : String) :
    List String :=
  let r := updateJavaHomeLines javaPath lines
  if r.2 then r.1 else lines ++ [gradleJavaHomeLine javaPath]

theorem dropWhile_append_stop {p : Char → Bool} (a : List Char) {b : List Char}
    (hb : b.dropWhile p = b) :
    (a ++ b).dropWhile p = a.dropWhile p ++ b := by
  induction a with
  | nil =>
    simp [hb]
  | cons c a ih =>
    by_cases hc : p c = true
    · simpa [List.dropWhile_cons, hc] using ih
    · simp [List.dropWhile_cons, hc]

theorem gradleJavaHomeLine_strip_startsWith (javaPath : String) :
    pyStartsWith (pyStripS (gradleJavaHomeLine javaPath)) gradleJavaHomeKey = true := by
  unfold pyStartsWith pyStripS gradleJavaHomeLine pyStrip
  have hdata : ("org.gradle.java.home=" ++ javaPath).data
      = ("org.gradle.java.home=").data ++ javaPath.data := String.data_append _ _
  rw [hdata]
  have hfront : (("org.gradle.java.home=").data ++ javaPath.data).dropWhile isPySpace
      = ("org.gradle.java.home=").data ++ javaPath.data := by
    have hsh : ("org.gradle.java.home=").data = 'o' :: ("rg.gradle.java.home=").data := by
      decide
    rw [hsh, List.cons_append, List.dropWhile_cons, if_neg (by decide)]
  rw [hfront]
  rw [List.reverse_append]
  have hrev : (("org.gradle.java.home=").data.reverse).dropWhile isPySpace
      = ("org.gradle.java.home=").data.reverse := by decide
  rw [dropWhile_append_stop _ hrev, List.reverse_append, List.reverse_reverse]
  have hkey : ("org.gradle.java.home").data
      = ("org.gradle.java.home").data.take 20 := by decide
  refine List.isPrefixOf_iff_prefix.mpr ?_
  refine List.IsPrefix.trans ?_ (List.prefix_append _ _)
  have : ("org.gradle.java.home").data <+: ("org.gradle.java.home=").data := by decide
  exact this

theorem updateJavaHomeLines_of_match (javaPath : String) :
    ∀ (lines ls' : List String),
      updateJavaHomeLines javaPath lines = (ls', true) →
      updateJavaHomeLines javaPath ls' = (ls', true) := by
  intro lines
  induction lines with
  | nil =>
    intro ls' h
    simp [updateJavaHomeLines] at h
  | cons l ls ih =>
    intro ls' h
    by_cases b1 : pyStartsWith (pyStripS l) gradleJavaHomeKey = true
    · rw [updateJavaHomeLines, if_pos b1, Prod.mk.injEq] at h
      obtain ⟨h1, -⟩ := h
      subst h1
      rw [updateJavaHomeLines,
        if_pos (gradleJavaHomeLine_strip_startsWith javaPath)]
    · by_cases b2 : pyStartsWith (pyStripS l) ("# " ++ gradleJavaHomeKey) = true
      · rw [updateJavaHomeLines, if_neg b1, if_pos b2, Prod.mk.injEq] at h
        obtain ⟨h1, -⟩ := h
        subst h1
        rw [updateJavaHomeLines,
          if_pos (gradleJavaHomeLine_strip_startsWith javaPath)]
      · rw [updateJavaHomeLines, if_neg b1, if_neg b2, Prod.mk.injEq] at h
        obtain ⟨h1, h2⟩ := h
        subst h1
        have hr : updateJavaHomeLines javaPath ls
            = ((updateJavaHomeLines javaPath ls).1, true) := by
          rw [← h2]
        have hstep := ih (updateJavaHomeLines javaPath ls).1 hr
        rw [updateJavaHomeLines, if_neg b1, if_neg b2, hstep]

theorem updateJavaHomeLines_of_nomatch (javaPath : String) :
    ∀ (lines ls' : List String),
      updateJavaHomeLines javaPath lines = (ls', false) →
      updateJavaHomeLines javaPath (lines ++ [gradleJavaHomeLine javaPath])
        = (lines ++ [gradleJavaHomeLine javaPath], true) := by
  intro lines
  induction lines with
  | nil =>
    intro ls' _
    simp only [List.nil_append]
    rw [updateJavaHomeLines,
      if_pos (gradleJavaHomeLine_strip_startsWith javaPath)]
  | cons l ls ih =>
    intro ls' h
    by_cases b1 : pyStartsWith (pyStripS l) gradleJavaHomeKey = true
    · rw [updateJavaHomeLines, if_pos b1, Prod.mk.injEq] at h
      exact absurd h.2 (by simp)
    · by_cases b2 : pyStartsWith (pyStripS l) ("# " ++ gradleJavaHomeKey) = true
      · rw [updateJavaHomeLines, if_neg b1, if_pos b2, Prod.mk.injEq] at h
        exact absurd h.2 (by simp)
      · rw [updateJavaHomeLines, if_neg b1, if_neg b2, Prod.mk.injEq] at h
        obtain ⟨-, h2⟩ := h
        have hr : updateJavaHomeLines javaPath ls
            = ((updateJavaHomeLines javaPath ls).1, false) := by
          rw [← h2]
        have hstep := ih (updateJavaHomeLines javaPath ls).1 hr
        rw [List.cons_append, updateJavaHomeLines, if_neg b1, if_neg b2, hstep]

theorem configure_gradle_properties_of_match {javaPath : String}
    {lines ls' : List String}
    (h : updateJavaHomeLines javaPath lines = (ls', true)) :
    configure_gradle_properties lines javaPath = ls' := by
  simp only [configure_gradle_properties]
  rw [h]
  simp

theorem configure_gradle_properties_of_nomatch {javaPath : String}
    {lines ls' : List String}
    (h : updateJavaHomeLines javaPath lines = (ls', false)) :
    configure_gradle_properties lines javaPath
      = lines ++ [gradleJavaHomeLine javaPath] := by
  simp only [configure_gradle_properties]
  rw [h]
  simp

theorem configure_gradle_properties_idem (lines : List String) (javaPath : String) :
    configure_gradle_properties (configure_gradle_properties lines javaPath) javaPath
      = configure_gradle_properties lines javaPath := by
  cases hupd : updateJavaHomeLines javaPath lines with
  | mk ls' updated =>
    cases updated with
    | true =>
      rw [configure_gradle_properties_of_match hupd,
        configure_gradle_properties_of_match
          (updateJavaHomeLines_of_match javaPath lines ls' hupd)]
    | false =>
      rw [configure_gradle_properties_of_nomatch hupd,
        configure_gradle_properties_of_match
          (updateJavaHomeLines_of_nomatch javaPath lines ls' hupd)]

theorem isPrefixOf_append_left {pat a : List Char} (b : List Char)
    (h : pat.isPrefixOf a = true) : pat.isPrefixOf (a ++ b) = true := by
  rw [List.isPrefixOf_iff_prefix] at h ⊢
  exact h.trans (List.prefix_append a b)

theorem containsSub_append_left {a : List Char} (b : List Char) {pat : List Char}
    (h : containsSub a pat = true) : containsSub (a ++ b) pat = true := by
  induction a with
  | nil =>
    cases b with
    | nil => simpa using h
    | cons c cs =>
      simp only [containsSub] at h
      simp only [List.nil_append, containsSub, Bool.or_eq_true]
      left
      exact isPrefixOf_append_left _ h
  | cons c cs ih =>
    simp only [containsSub, Bool.or_eq_true] at h
    simp only [List.cons_append, containsSub, Bool.or_eq_true]
    rcases h with h | h
    · left
      have := isPrefixOf_append_left (b := b) h
      simpa using this
    · right
      exact ih h

theorem containsSub_append_right (a : List Char) {b pat : List Char}
    (h : containsSub b pat = true) : containsSub (a ++ b) pat = true := by
  induction a with
  | nil => simpa using h
  | cons c cs ih =>
    simp only [List.cons_append, containsSub, Bool.or_eq_true]
    right
    exact ih

theorem insertAt_contains_eclipseMark (c : List Char) (pos : Nat) :
    containsSub (insertAt c pos eclipseBlockText) eclipseMark = true := by
  unfold insertAt
  rw [List.append_assoc]
  refine containsSub_append_right _ ?_
  exact containsSub_append_left _ (by decide)

theorem bgPhase2_no_insert_of_contains (endP3 : List Char → Option Nat)
    (c : List Char) (m : Bool) (h : containsSub c eclipseMark = true) :
    (bgPhase2 endP3 c m).insertedBlock = false ∧ (bgPhase2 endP3 c m).content = some c := by
  unfold bgPhase2
  rw [if_pos h]
  exact ⟨rfl, rfl⟩

theorem bgPhase2_insert_content (endP3 : List Char → Option Nat)
    (c : List Char) (m : Bool) (c' : List Char)
    (hins : (bgPhase2 endP3 c m).insertedBlock = true)
    (hc : (bgPhase2 endP3 c m).content = some c') :
    containsSub c' eclipseMark = true := by
  unfold bgPhase2 at hins hc
  by_cases h : containsSub c eclipseMark = true
  · rw [if_pos h] at hins
    simp at hins
  · rw [if_neg h] at hins hc
    cases hp : endP3 c with
    | some pos =>
      rw [hp] at hins hc
      simp only [Option.some.injEq] at hc
      rw [← hc]
      exact insertAt_contains_eclipseMark c pos
    | none =>
      rw [hp] at hins
      simp at hins

theorem bgPhase1_out (searchP1 : List Char → Bool) (subP2 : List Char → List Char)
    (c0 c : List Char) (m : Bool) (h : bgPhase1 searchP1 subP2 c0 = some (c, m)) :
    c = c0 ∨ c = subP2 c0 := by
  unfold bgPhase1 at h
  by_cases h1 : containsSub c0 testMark = true
  · rw [if_pos h1] at h
    cases hs : (pySplitAll c0 sourceSetsMark).get? 1 with
    | none =>
      rw [hs] at h
      simp at h
    | some seg1 =>
      rw [hs] at h
      simp only at h
      by_cases h2 : (!(containsSub ((pySplitAll seg1 testMark).headD []) commentOpenMark)) = true
      · rw [if_pos h2] at h
        by_cases h3 : searchP1 c0 = true
        · rw [if_pos h3] at h
          simp only [Option.some.injEq, Prod.mk.injEq] at h
          exact Or.inl h.1.symm
        · rw [if_neg h3] at h
          simp only [Option.some.injEq, Prod.mk.injEq] at h
          exact Or.inr h.1.symm
      · rw [if_neg h2] at h
        simp only [Option.some.injEq, Prod.mk.injEq] at h
        exact Or.inl h.1.symm
  · rw [if_neg h1] at h
    simp only [Option.some.injEq, Prod.mk.injEq] at h
    exact Or.inl h.1.symm

theorem configure_build_gradle_no_insert_of_contains
    (searchP1 : List Char → Bool) (subP2 : List Char → List Char)
    (endP3 : List Char → Option Nat) (c : List Char)
    (hpres : ∀ s, containsSub s eclipseMark = true →
      containsSub (subP2 s) eclipseMark = true)
    (h : containsSub c eclipseMark = true) :
    (configure_build_gradle searchP1 subP2 endP3 (some c)).insertedBlock = false := by
  cases hp : bgPhase1 searchP1 subP2 c with
  | none => simp only [configure_build_gradle, hp]
  | some r =>
    obtain ⟨c', m⟩ := r
    simp only [configure_build_gradle, hp]
    rcases bgPhase1_out searchP1 subP2 c c' m hp with rfl | rfl
    · exact (bgPhase2_no_insert_of_contains endP3 c' m h).1
    · exact (bgPhase2_no_insert_of_contains endP3 _ m (hpres c h)).1

theorem configure_build_gradle_insert_content
    (searchP1 : List Char → Bool) (subP2 : List Char → List Char)
    (endP3 : List Char → Option Nat) (c c₁ : List Char)
    (hins : (configure_build_gradle searchP1 subP2 endP3 (some c)).insertedBlock = true)
    (hc : (configure_build_gradle searchP1 subP2 endP3 (some c)).content = some c₁) :
    containsSub c₁ eclipseMark = true := by
  cases hp : bgPhase1 searchP1 subP2 c with
  | none =>
    simp only [configure_build_gradle, hp] at hins
    exact absurd hins (by decide)
  | some r =>
    obtain ⟨c', m⟩ := r
    simp only [configure_build_gradle, hp] at hins hc
    exact bgPhase2_insert_content endP3 c' m c₁ hins hc


theorem configure_build_gradle_no_dup
    (searchP1 : List Char → Bool) (subP2 : List Char → List Char)
    (endP3 : List Char → Option Nat) (c c₁ : List Char)
    (hpres : ∀ s, containsSub s eclipseMark = true →
      containsSub (subP2 s) eclipseMark = true)
    (hins : (configure_build_gradle searchP1 subP2 endP3 (some c)).insertedBlock = true)
    (hc : (configure_build_gradle searchP1 subP2 endP3 (some c)).content = some c₁) :
    (configure_build_gradle searchP1 subP2 endP3 (some c₁)).insertedBlock = false :=
  configure_build_gradle_no_insert_of_contains searchP1 subP2 endP3 c₁ hpres
    (configure_build_gradle_insert_content searchP1 subP2 endP3 c c₁ hins hc)

/-! ## Spring-web jar deletion (`build_manager.py`, `delete_spring_web_jars`)

The `WebContent/WEB-INF/lib` directory is modelled by the list of its file
names, in the order `Path.glob` yields them; `none` models an absent
directory.  The glob pattern `spring-web-5.3*.jar` matches exactly the
names of the form `"spring-web-5.3" ++ m ++ ".jar"`; since the fixed parts
together hold 18 characters, a name matches iff it starts with the fixed
prefix, ends with the fixed suffix and is at least 18 characters long. -/

def lowerStr (s : String) : String := String.mk (s.data.map Char.toLower)

def pyEndsWith (s suf : String) : Bool := suf.data.isSuffixOf s.data

def sjGlobMatch (name : String) : Bool :=
  pyStartsWith name "spring-web-5.3" && pyEndsWith name ".jar"
    && decide (18 ≤ name.length)

def webmvcMark : List Char := ("webmvc").data

def websocketMark : List Char := ("websocket").data

/-- The deletion test of the loop body (lines 258-260): glob match and
neither `webmvc` nor `websocket` occurring in the lowercased name. -/
def springWebTarget (name : String) : Bool :=
  sjGlobMatch name
    && !containsSub (lowerStr name).data webmvcMark
    && !containsSub (lowerStr name).data websocketMark

structure DeleteJarsOut where
  remaining : Option (List String)
  deleted : List String
  ok : Bool
  msg : String
deriving DecidableEq

/-- `BuildManager.delete_spring_web_jars` (lines 247-273): with no
`WEB-INF/lib` directory the sub-step fails; otherwise every
`spring-web-5.3*.jar` whose name contains neither `webmvc` nor
`websocket` is unlinked, and the sub-step succeeds whether or not
anything was deleted. -/
def delete_spring_web_jars (lib : Option (List String)) : DeleteJarsOut :=
  match lib with
  | none => ⟨none, [], false, "WEB-INF/lib directory not found"⟩
  | some names =>
    let deleted := names.filter springWebTarget
    if deleted.isEmpty then
      ⟨some (names.filter (fun n => !springWebTarget n)), deleted, true,
        "No spring-web-5.3*.jar files found to delete"⟩
    else
      ⟨some (names.filter (fun n => !springWebTarget n)), deleted, true,
        "Deleted " ++ toString deleted.length ++ " file(s): "
          ++ String.intercalate ", " deleted⟩

/-- `BuildManager.configure_gradle_properties` at file level (lines
133-175): a missing `gradle.properties` fails the sub-step, otherwise the
line edit of `configure_gradle_properties` is applied and reported. -/
def configure_gradle_properties_file (props : Option (List String))
    (javaPath : String) : Option (List String) × Bool × String :=
  match props with
  | none => (none, false, "gradle.properties not found")
  | some lines =>
    (some (configure_gradle_properties lines javaPath), true,
      "Updated gradle.properties with JAVA_HOME: " ++ javaPath)

structure GradleProjectOut where
  props : Option (List String)
  buildGradle : BuildGradleResult
  jars : DeleteJarsOut
  ok : Bool
  msg : String
deriving DecidableEq

/-- `BuildManager.configure_gradle_project` (lines 275-304): run the three
sub-steps unconditionally, succeed iff all three succeeded, and otherwise
name the failed sub-steps in the message. -/
def configure_gradle_project (javaPath : String) (searchP1 : List Char → Bool)
    (subP2 : List Char → List Char) (endP3 : List Char → Option Nat)
    (props : Option (List String)) (bg : Option (List Char))
    (lib : Option (List String)) : GradleProjectOut :=
  let r1 := configure_gradle_properties_file props javaPath
  let r2 := configure_build_gradle searchP1 subP2 endP3 bg
  let r3 := delete_spring_web_jars lib
  let oks : List (String × Bool) :=
    [("gradle.properties", r1.2.1), ("build.gradle", r2.ok),
     ("spring-web JARs", r3.ok)]
  if oks.all (fun r => r.2) then
    ⟨r1.1, r2, r3, true, "All Gradle configurations completed successfully"⟩
  else
    ⟨r1.1, r2, r3, false,
      "Some configurations failed: "
        ++ String.intercalate ", " ((oks.filter (fun r => !r.2)).map Prod.fst)⟩

theorem delete_spring_web_jars_none :
    delete_spring_web_jars none
      = ⟨none, [], false, "WEB-INF/lib directory not found"⟩ := rfl

theorem delete_spring_web_jars_some (names : List String) :
    (delete_spring_web_jars (some names)).deleted = names.filter springWebTarget
      ∧ (delete_spring_web_jars (some names)).remaining
          = some (names.filter (fun n => !springWebTarget n))
      ∧ (delete_spring_web_jars (some names)).ok = true := by
  simp only [delete_spring_web_jars]
  split <;> exact ⟨rfl, rfl, rfl⟩

theorem configure_gradle_project_no_lib (javaPath : String)
    (searchP1 : List Char → Bool) (subP2 : List Char → List Char)
    (endP3 : List Char → Option Nat) (props : Option (List String))
    (bg : Option (List Char))
    (h1 : (configure_gradle_properties_file props javaPath).2.1 = true)
    (h2 : (configure_build_gradle searchP1 subP2 endP3 bg).ok = true) :
    (configure_gradle_project javaPath searchP1 subP2 endP3 props bg none).ok = false
      ∧ (configure_gradle_project javaPath searchP1 subP2 endP3 props bg none).msg
          = "Some configurations failed: spring-web JARs" := by
  simp only [configure_gradle_project, delete_spring_web_jars, h1, h2]
  simp only [List.all_cons, List.all_nil, Bool.and_true, Bool.and_false,
    Bool.false_and, Bool.true_and, Bool.and_self]
  refine ⟨by simp [List.filter, h1, h2], ?_⟩
  have : "Some configurations failed: " ++ String.intercalate ", " ["spring-web JARs"]
      = "Some configurations failed: spring-web JARs" := by decide
  simpa [List.filter, h1, h2] using this

/-! ## Pipeline orchestration (`automation.py`, `WorkspaceAutomation.run`)

The orchestrator is modelled stage by stage.  Opaque effects (subprocess
outcomes, filesystem probes, console input already resolved by
`select_or_create_workspace`) enter through an environment record; the
output records the stages reached, the per-repository clone outcomes, the
deployed artifact and how `run` terminated: a returned boolean, or an
exception escaping `run`. -/

inductive Stage where
  | validate
  | selectWs
  | cloneStage
  | resourceStage
  | eclipseStage
  | gradleStage
  | buildStage
  | deployStage
  | tomcatStage
  | summary
deriving DecidableEq

inductive PyExc where
  | valueError
  | nameError
deriving DecidableEq

/-- How `run` terminates: `ret b` models `return b`, `exc e` models an
exception escaping `run` (abnormal termination of the pipeline). -/
inductive RunResult where
  | ret (b : Bool)
  | exc (e : PyExc)
deriving DecidableEq

/-- `WorkspaceManager.clone_all_repositories` (lines 174-184): the `for`
loop attempts each repository in order and appends one result per
repository; `outcome` gives the `(success, result-message)` pair that
`clone_repository` produces for each repository. -/
def clone_all_repositories (outcome : Repo → Bool × String) (repos : List Repo) :
    List (String × Bool × String) :=
  repos.map (fun r => (r.name, (outcome r).1, (outcome r).2))

structure WarFile where
  name : String
  mtime : Nat
deriving DecidableEq

/-- `BuildManager.detect_build_system` (lines 18-23). -/
def detect_build_system (buildGradleExists buildGradleKtsExists : Bool) :
    Option String :=
  if buildGradleExists || buildGradleKtsExists then some "gradle" else none

/-- `BuildManager.build_project` (lines 58-67): delegate to the Gradle
build when a build file is present, otherwise fail with the fixed
message.  `gradleBuild` is the outcome of `build_gradle_project`. -/
def build_project (buildGradleExists buildGradleKtsExists : Bool)
    (gradleBuild : Bool × String) : Bool × String :=
  if detect_build_system buildGradleExists buildGradleKtsExists == some "gradle" then
    gradleBuild
  else (false, "No build system detected (build.gradle not found)")

/-- `BuildManager.find_war_file` (lines 69-78): `build/libs` is modelled by
its file list in `glob` order (`none` when absent); the function returns
`war_files[0]`, the first `.war` in that order. -/
def find_war_file (libs : Option (List WarFile)) : Option WarFile :=
  match libs with
  | none => none
  | some files =>
    match files.filter (fun w => pyEndsWith w.name ".war") with
    | [] => none
    | w :: _ => some w

/-- Modelled from the spec: "the single most-recently-produced deployable
artifact" — a `.war` file of maximal modification time. -/
def specNewestWar (libs : Option (List WarFile)) : Option WarFile :=
  match libs with
  | none => none
  | some files =>
    (files.filter (fun w => pyEndsWith w.name ".war")).foldl
      (fun acc w =>
        match acc with
        | none => some w
        | some b => if b.mtime < w.mtime then some w else some b)
      none

/-- Outcome of the Eclipse stage `try` block (automation.py lines
190-200): `setup_project` either raises (the exception is caught at line
199), or returns.  A bare `False` return makes the tuple unpacking at
line 191 raise `TypeError`, also caught; only a `(True, ws)` return binds
the local variable `eclipse_workspace`. -/
inductive EclipseStageOutcome where
  | raised
  | returned (r : EclipseRet)
deriving DecidableEq

def eclipseWorkspaceBound : EclipseStageOutcome → Option String
  | EclipseStageOutcome.returned (EclipseRet.okPair ws) => some ws
  | _ => none

structure RunEnv where
  validateOk : Bool
  selection : Option (String × Bool)
  repos : List Repo
  isDirAt : String → Bool
  cloneOutcome : Repo → Bool × String
  eclipse : EclipseStageOutcome
  eclipseRepo : Option Repo
  javaPath : String
  searchP1 : List Char → Bool
  subP2 : List Char → List Char
  endP3 : List Char → Option Nat
  props : Option (List String)
  bg : Option (List Char)
  lib : Option (List String)
  buildGradleExists : Bool
  buildGradleKtsExists : Bool
  gradleBuild : Bool × String
  libs : Option (List WarFile)

structure RunOut where
  trace : List Stage
  cloneResults : List (String × Bool × String)
  gradleCfg : Option GradleProjectOut
  deployed : Option WarFile
  result : RunResult

/-- `WorkspaceAutomation.run` (automation.py lines 95-271).

`validateOk` is the outcome of `validate_prerequisites`; `selection` is
the `(workspace_path, is_new)` pair of `select_or_create_workspace`, or
`none` when that step (or `create_workspace`) raised, which is caught at
line 119 and turns into `return False`.  The clone stage (lines 128-167)
computes `all_cloned` only to pick a warning message; it never stops the
pipeline.  The resource stage (lines 174-183) and the Eclipse stage
(lines 190-200) catch their own exceptions and continue.  At line 207
`config.get_eclipse_repo()` runs outside any `try`, so with no valid
Eclipse repository configured a `ValueError` escapes `run`.  The build
stage result gates only the deploy step (lines 226-242); the Tomcat start
(line 251) always runs.  The summary (line 263) reads
`eclipse_workspace`, which is unbound unless the Eclipse stage returned a
`(True, ws)` pair, so it raises `NameError` (`UnboundLocalError`) in
every other case; otherwise `run` returns `True` unconditionally. -/
def run (env : RunEnv) : RunOut :=
  if env.validateOk = false then
    ⟨[Stage.validate], [], none, none, RunResult.ret false⟩
  else
    match env.selection with
    | none =>
      ⟨[Stage.validate, Stage.selectWs], [], none, none, RunResult.ret false⟩
    | some (_, isNew) =>
      let cloneResults :=
        if isNew then clone_all_repositories env.cloneOutcome env.repos
        else
          let vr := validate_workspace_repos env.isDirAt env.repos
          if vr.2.isEmpty then []
          else clone_all_repositories env.cloneOutcome vr.2
      let preTrace := [Stage.validate, Stage.selectWs, Stage.cloneStage,
        Stage.resourceStage, Stage.eclipseStage]
      match env.eclipseRepo with
      | none =>
        ⟨preTrace ++ [Stage.gradleStage], cloneResults, none, none,
          RunResult.exc PyExc.valueError⟩
      | some _ =>
        let gradleCfg := configure_gradle_project env.javaPath env.searchP1
          env.subP2 env.endP3 env.props env.bg env.lib
        let bp := build_project env.buildGradleExists env.buildGradleKtsExists
          env.gradleBuild
        let war := find_war_file env.libs
        let deployed := if bp.1 then war else none
        let deployTrace : List Stage :=
          if bp.1 then
            match war with
            | some _ => [Stage.deployStage]
            | none => []
          else []
        let trace := preTrace ++ [Stage.gradleStage, Stage.buildStage]
          ++ deployTrace ++ [Stage.tomcatStage, Stage.summary]
        match eclipseWorkspaceBound env.eclipse with
        | none =>
          ⟨trace, cloneResults, some gradleCfg, deployed,
            RunResult.exc PyExc.nameError⟩
        | some _ =>
          ⟨trace, cloneResults, some gradleCfg, deployed, RunResult.ret true⟩

/-! ## Claims -/

/-- A pipeline environment in which every clone attempt fails and every
later stage input is healthy. -/
def envAllClonesFail : RunEnv :=
  ⟨true, some ("D:/ws/workspace_v1", true),
   [⟨"https://h/a.git", "A", ""⟩, ⟨"https://h/b.git", "B", ""⟩,
    ⟨"https://h/c.git", "C", ""⟩],
   fun _ => false,
   fun _ => (false, "Clone failed (exit code: 128)"),
   EclipseStageOutcome.returned (EclipseRet.okPair "D:/ws/workspace_v1/eclipse-workspace"),
   some ⟨"https://h/a.git", "A", ""⟩,
   "C:/java", fun _ => false, id, fun _ => none,
   some [], some [], some [],
   true, false, (true, "Build successful"), some []⟩

/-- Claim C1: clone-stage failure policy.  Each repository is attempted
independently — a failure for the head repository does not change the
attempts recorded for the remaining repositories, and exactly one outcome
per attempted repository appears in the results.  However, the pipeline
never treats clone failures as critical: even when every clone fails
(zero repositories cloned), the resource, Eclipse, Gradle, build and
Tomcat stages all still run and `run` returns `True`. -/
theorem C1_clone_failure_policy
    (outcome : Repo → Bool × String) (r : Repo) (rs : List Repo)
    (env : RunEnv) (ws e : String) (rp : Repo)
    (hval : env.validateOk = true)
    (hsel : env.selection = some (ws, true))
    (hrepo : env.eclipseRepo = some rp)
    (hecl : env.eclipse = EclipseStageOutcome.returned (EclipseRet.okPair e))
    (hfail : ∀ q, (env.cloneOutcome q).1 = false) :
    clone_all_repositories outcome (r :: rs)
        = (r.name, (outcome r).1, (outcome r).2) :: clone_all_repositories outcome rs
      ∧ (clone_all_repositories outcome rs).length = rs.length
      ∧ (run env).cloneResults
          = env.repos.map (fun q => (q.name, false, (env.cloneOutcome q).2))
      ∧ Stage.resourceStage ∈ (run env).trace
      ∧ Stage.tomcatStage ∈ (run env).trace
      ∧ (run env).result = RunResult.ret true := by
  refine ⟨rfl, by simp [clone_all_repositories], ?_, ?_, ?_, ?_⟩ <;>
  · simp only [run, hval, hsel, hrepo, hecl, eclipseWorkspaceBound]
    simp [clone_all_repositories, hfail]

theorem C1_clone_failure_policy_witness :
    (run envAllClonesFail).result = RunResult.ret true
      ∧ Stage.tomcatStage ∈ (run envAllClonesFail).trace
      ∧ (run envAllClonesFail).cloneResults
          = [("A", false, "Clone failed (exit code: 128)"),
             ("B", false, "Clone failed (exit code: 128)"),
             ("C", false, "Clone failed (exit code: 128)")] := by
  have h := C1_clone_failure_policy (fun _ => (false, "x")) ⟨"u", "A", ""⟩ []
    envAllClonesFail "D:/ws/workspace_v1" "D:/ws/workspace_v1/eclipse-workspace"
    ⟨"https://h/a.git", "A", ""⟩ rfl rfl rfl rfl (fun _ => rfl)
  refine ⟨h.2.2.2.2.2, h.2.2.2.2.1, ?_⟩
  rw [h.2.2.1]
  rfl

/-- Claim C1, counterexample to the pipeline-level halting policy: in
`envAllClonesFail` zero repositories clone successfully, yet no later
stage is skipped and `run` still returns `True` — the pipeline is never
treated as critically failed, regardless of the clone outcomes. -/
theorem C1_counterexample :
    (∀ e ∈ (run envAllClonesFail).cloneResults, e.2.1 = false)
      ∧ (run envAllClonesFail).cloneResults.length = 3
      ∧ Stage.resourceStage ∈ (run envAllClonesFail).trace
      ∧ Stage.buildStage ∈ (run envAllClonesFail).trace
      ∧ Stage.tomcatStage ∈ (run envAllClonesFail).trace
      ∧ (run envAllClonesFail).result = RunResult.ret true := by decide

/-- Claim C2: the workspace resolver scans versions 1, 2, 3, … and
returns the least version at which no *path* exists — gap-filling, but
with respect to `Path.exists()`, which is also true for plain files, not
only for directories. -/
theorem C2_next_slot (es : List (Nat × Bool)) :
    1 ≤ get_next_workspace_path es
      ∧ pathExistsE es (get_next_workspace_path es) = false
      ∧ ∀ w, 1 ≤ w → w < get_next_workspace_path es → pathExistsE es w = true := by
  have h := nextVersionLoop_spec es (maxSuffix es + 1) 1 (by omega)
  exact ⟨h.1, h.2.1, fun w hw hw2 => h.2.2 w hw hw2⟩

theorem C2_next_slot_witness :
    1 ≤ get_next_workspace_path [(1, true), (3, true)]
      ∧ pathExistsE [(1, true), (3, true)]
          (get_next_workspace_path [(1, true), (3, true)]) = false
      ∧ pathExistsE [(1, true), (3, true)] 1 = true :=
  ⟨(C2_next_slot [(1, true), (3, true)]).1,
   (C2_next_slot [(1, true), (3, true)]).2.1,
   (C2_next_slot [(1, true), (3, true)]).2.2 1 (by decide) (by decide)⟩

/-- Claim C2, counterexample to "lowest suffix not used by an existing
*directory*": with a plain file occupying suffix 1 and no directory using
it, the resolver still skips to suffix 2, because the loop probes
`Path.exists()` rather than `is_dir()`. -/
theorem C2_counterexample :
    get_next_workspace_path [(1, false)] = 2
      ∧ dirExistsE [(1, false)] 1 = false := by decide

theorem count_filter_add (p : Repo → Bool) (l : List Repo) (a : Repo) :
    (l.filter p).count a + (l.filter (fun x => !p x)).count a = l.count a := by
  induction l with
  | nil => rfl
  | cons x xs ih =>
    by_cases h : p x = true
    · simp only [List.filter_cons, h, if_true, Bool.not_true, Bool.false_eq_true,
        if_false, List.count_cons]
      omega
    · have h' : p x = false := by
        cases hx : p x
        · rfl
        · exact absurd hx h
      simp only [List.filter_cons, h', Bool.false_eq_true, if_false, Bool.not_false,
        if_true, List.count_cons]
      omega

/-- Claim C3: `validate_workspace_repos` stably partitions the desired
repository list: both outputs are subsequences of the input (order
preserved), every desired repository lands in exactly one output
(multiplicities add up; a member of one output is not a member of the
other). -/
theorem C3_stable_partition (isDirAt : String → Bool) (repos : List Repo) :
    (validate_workspace_repos isDirAt repos).1.Sublist repos
      ∧ (validate_workspace_repos isDirAt repos).2.Sublist repos
      ∧ (∀ r : Repo, (validate_workspace_repos isDirAt repos).1.count r
          + (validate_workspace_repos isDirAt repos).2.count r = repos.count r)
      ∧ (∀ r ∈ repos, r ∈ (validate_workspace_repos isDirAt repos).1
          ∨ r ∈ (validate_workspace_repos isDirAt repos).2)
      ∧ (∀ r : Repo, r ∈ (validate_workspace_repos isDirAt repos).1
          → r ∉ (validate_workspace_repos isDirAt repos).2) := by
  rw [validate_workspace_repos_eq_filter]
  refine ⟨List.filter_sublist _, List.filter_sublist _,
    fun r => count_filter_add _ _ _, ?_, ?_⟩
  · intro r hr
    by_cases h : isDirAt r.name = true
    · exact Or.inl (List.mem_filter.mpr ⟨hr, h⟩)
    · exact Or.inr (List.mem_filter.mpr ⟨hr, by simp [h]⟩)
  · intro r h1 h2
    have a1 := (List.mem_filter.mp h1).2
    have a2 := (List.mem_filter.mp h2).2
    rw [a1] at a2
    exact absurd a2 (by decide)

theorem C3_stable_partition_witness :
    (⟨"u1", "A", ""⟩ : Repo) ∈ (validate_workspace_repos (fun n => n == "A")
        [⟨"u1", "A", ""⟩, ⟨"u2", "B", ""⟩]).1
      ∨ (⟨"u1", "A", ""⟩ : Repo) ∈ (validate_workspace_repos (fun n => n == "A")
        [⟨"u1", "A", ""⟩, ⟨"u2", "B", ""⟩]).2 :=
  (C3_stable_partition (fun n => n == "A")
      [⟨"u1", "A", ""⟩, ⟨"u2", "B", ""⟩]).2.2.2.1
    ⟨"u1", "A", ""⟩ (by decide)

/-- Claim C4: at the selection point, empty input and an interruption
signal each default to creating the next-new workspace, but invalid input
does NOT: the loop prints an error and re-prompts, so with no further
input it blocks instead of resolving to create-new. -/
theorem C4_selection_defaults (existing : List String) (next : String)
    (rest : List InEvent) (hne : existing ≠ []) :
    select_or_create_workspace existing next (InEvent.line "" :: rest)
        = SelResult.chosen next true
      ∧ select_or_create_workspace existing next (InEvent.interrupt :: rest)
          = SelResult.chosen next true
      ∧ (∀ s : String, pyStrip s.data ≠ [] → pyInt (pyStrip s.data) = none →
          select_or_create_workspace existing next (InEvent.line s :: rest)
            = selectLoop existing next rest)
      ∧ select_or_create_workspace existing next [InEvent.line "abc"]
          = SelResult.blocked := by
  have hni : existing.isEmpty = false := by
    cases existing with
    | nil => exact absurd rfl hne
    | cons a l => rfl
  have hempty : pyStrip ("" : String).data = [] := rfl
  have habcne : pyStrip ("abc" : String).data ≠ [] := by decide
  have habcint : pyInt (pyStrip ("abc" : String).data) = none := by decide
  refine ⟨?_, ?_, ?_, ?_⟩
  · simp [select_or_create_workspace, hni, selectLoop, hempty]
  · simp [select_or_create_workspace, hni, selectLoop]
  · intro s hs hnone
    simp [select_or_create_workspace, hni, selectLoop, hs, hnone]
  · simp [select_or_create_workspace, hni, selectLoop, habcne, habcint]

theorem C4_selection_defaults_witness :
    select_or_create_workspace ["ws1"] "ws2" [InEvent.line "", InEvent.interrupt]
        = SelResult.chosen "ws2" true
      ∧ select_or_create_workspace ["ws1"] "ws2" [InEvent.line "abc"]
          = SelResult.blocked := by
  have h := C4_selection_defaults ["ws1"] "ws2" [InEvent.interrupt] (by decide)
  exact ⟨h.1, h.2.2.2⟩

/-- Claim C4, counterexample: a single invalid input line at the
selection prompt leaves the loop blocked on the next `input()` — it does
not resolve to "create the next-new workspace". -/
theorem C4_counterexample :
    select_or_create_workspace ["ws1"] "ws2" [InEvent.line "abc"]
        = SelResult.blocked
      ∧ SelResult.blocked ≠ SelResult.chosen "ws2" true := by decide

/-- A pipeline environment whose Eclipse stage hits the missing-project
path, so `setup_project` returns a bare `False`. -/
def envEclipseFails : RunEnv :=
  ⟨true, some ("D:/ws/workspace_v1", true),
   [⟨"u1", "A", ""⟩], fun _ => false, fun _ => (true, "ok"),
   EclipseStageOutcome.returned EclipseRet.retFalse,
   some ⟨"u1", "A", ""⟩, "C:/java", fun _ => false, id, fun _ => none,
   some [], some [], some [], true, false, (true, "Build successful"), some []⟩

/-- Claim C5: a failed Eclipse-configuration stage makes `run` terminate
abnormally.  When the project path is missing, `setup_project` returns a
bare `False`; unpacking it as a tuple raises `TypeError`, which the stage
`try` catches, leaving `eclipse_workspace` unbound — and the summary then
raises `NameError` (`UnboundLocalError`), which escapes `run`.  This
contradicts the claim that the orchestrator never receives an unhandled
exception from a stage. -/
theorem C5_eclipse_failure_escape (cfg : EclipseConfig) (fs : Fs)
    (ws repo : String) (env : RunEnv) (wsS : String) (rp : Repo)
    (hval : env.validateOk = true)
    (hsel : env.selection = some (wsS, true))
    (hrepo : env.eclipseRepo = some rp)
    (hproj : fsPathExists fs (ws ++ "/" ++ repo) = false)
    (hecl : env.eclipse
      = EclipseStageOutcome.returned (setup_project cfg fs ws repo).ret) :
    (setup_project cfg fs ws repo).ret = EclipseRet.retFalse
      ∧ (run env).result = RunResult.exc PyExc.nameError := by
  have hret : (setup_project cfg fs ws repo).ret = EclipseRet.retFalse := by
    simp [setup_project, hproj]
  refine ⟨hret, ?_⟩
  rw [hret] at hecl
  simp only [run, hval, hsel, hrepo, hecl, eclipseWorkspaceBound]
  simp

theorem C5_eclipse_failure_escape_witness :
    (run envEclipseFails).result = RunResult.exc PyExc.nameError :=
  (C5_eclipse_failure_escape ⟨"11", "9.0", "8080", "eclipse-workspace"⟩
    ⟨[], []⟩ "D:/ws/workspace_v1" "A" envEclipseFails "D:/ws/workspace_v1"
    ⟨"u1", "A", ""⟩ rfl rfl rfl (by decide) rfl).2

/-- Claim C6: second-run idempotence, corrected.  Re-running the Eclipse
setup against an already-configured workspace leaves the filesystem
unchanged, the recognized Gradle property key is not duplicated, and an
eclipse block inserted by a first `build.gradle` edit is not inserted
again.  But generation is NOT uniformly create-if-absent: the second run
rewrites the two `.settings` files and `server.xml` (with identical
content) even though they already exist — only `.project` and
`.classpath` are create-if-absent. -/
theorem C6_rerun_idempotent (cfg : EclipseConfig) (fs : Fs) (ws repo : String)
    (lines : List String) (javaPath : String)
    (searchP1 : List Char → Bool) (subP2 : List Char → List Char)
    (endP3 : List Char → Option Nat) (c c₁ : List Char)
    (hproj : fsPathExists fs (ws ++ "/" ++ repo) = true)
    (hpres : ∀ s, containsSub s eclipseMark = true →
      containsSub (subP2 s) eclipseMark = true)
    (hins : (configure_build_gradle searchP1 subP2 endP3 (some c)).insertedBlock
      = true)
    (hc : (configure_build_gradle searchP1 subP2 endP3 (some c)).content = some c₁) :
    (setup_project cfg (setup_project cfg fs ws repo).fs ws repo).fs
        = (setup_project cfg fs ws repo).fs
      ∧ (setup_project cfg (setup_project cfg fs ws repo).fs ws repo).writes
          = [jdtPrefsPath (ws ++ "/" ++ repo), facetPath (ws ++ "/" ++ repo),
             serverXmlPath (ws ++ "/" ++ cfg.eclipseWorkspaceName)]
      ∧ fsHasFile (setup_project cfg fs ws repo).fs
          (jdtPrefsPath (ws ++ "/" ++ repo)) = true
      ∧ configure_gradle_properties (configure_gradle_properties lines javaPath)
            javaPath
          = configure_gradle_properties lines javaPath
      ∧ (configure_build_gradle searchP1 subP2 endP3 (some c₁)).insertedBlock
          = false := by
  have hidem := setup_project_idem cfg fs ws repo hproj
  have hpost := setup_project_post cfg fs ws repo hproj
  refine ⟨?_, ?_, hpost.2.2.2.2.2.1,
    configure_gradle_properties_idem lines javaPath,
    configure_build_gradle_no_dup searchP1 subP2 endP3 c c₁ hpres hins hc⟩
  · rw [hidem]
  · rw [hidem]

set_option maxRecDepth 20000 in
theorem C6_rerun_idempotent_witness :
    (setup_project ⟨"11", "9.0", "8080", "ew"⟩
        (setup_project ⟨"11", "9.0", "8080", "ew"⟩ ⟨[], ["W/A"]⟩ "W" "A").fs
        "W" "A").fs
      = (setup_project ⟨"11", "9.0", "8080", "ew"⟩ ⟨[], ["W/A"]⟩ "W" "A").fs := by
  have h := C6_rerun_idempotent ⟨"11", "9.0", "8080", "ew"⟩ ⟨[], ["W/A"]⟩ "W" "A"
    [] "C:/java" (fun _ => false) id
    (fun c => if c = ("sourceSets \x7b\n\x7d").data then some 14 else none)
    (("sourceSets \x7b\n\x7d").data)
    (("sourceSets \x7b\n\x7d").data ++ eclipseBlockText)
    (by decide) (fun s hs => hs) (by decide) (by decide)
  exact h.1

/-- Claim C6, counterexample to "no IDE metadata file that already exists
is rewritten": after a first full Eclipse setup the
`org.eclipse.jdt.core.prefs` file exists, yet the second run's write list
still contains it — `generate_settings` writes unconditionally. -/
theorem C6_counterexample :
    fsHasFile (setup_project ⟨"11", "9.0", "8080", "ew"⟩ ⟨[], ["W/A"]⟩ "W" "A").fs
        (jdtPrefsPath ("W" ++ "/" ++ "A")) = true
      ∧ jdtPrefsPath ("W" ++ "/" ++ "A")
          ∈ (setup_project ⟨"11", "9.0", "8080", "ew"⟩
              (setup_project ⟨"11", "9.0", "8080", "ew"⟩ ⟨[], ["W/A"]⟩ "W" "A").fs
              "W" "A").writes := by
  have hproj : fsPathExists (⟨[], ["W/A"]⟩ : Fs) ("W" ++ "/" ++ "A") = true := by
    decide
  have hidem := setup_project_idem ⟨"11", "9.0", "8080", "ew"⟩ ⟨[], ["W/A"]⟩ "W" "A"
    hproj
  have hpost := setup_project_post ⟨"11", "9.0", "8080", "ew"⟩ ⟨[], ["W/A"]⟩ "W" "A"
    hproj
  refine ⟨hpost.2.2.2.2.2.1, ?_⟩
  rw [hidem]
  exact List.mem_cons_self _ _

/-- A pipeline environment with no `build.gradle`/`build.gradle.kts` in
the project, everything else healthy, and a WAR file sitting in
`build/libs`. -/
def envNoBuild : RunEnv :=
  ⟨true, some ("D:/ws/workspace_v1", true), [⟨"u1", "A", ""⟩], fun _ => false,
   fun _ => (true, "ok"),
   EclipseStageOutcome.returned (EclipseRet.okPair "D:/ws/workspace_v1/ew"),
   some ⟨"u1", "A", ""⟩, "C:/java", fun _ => false, id, fun _ => none,
   some [], some [], some [], false, false, (true, "Build successful"),
   some [⟨"app.war", 5⟩]⟩

/-- Claim C7: when no recognized build file is present the build stage
fails with the fixed message and the pipeline continues — the Tomcat
start stage still runs and `run` returns `True` (exit 0).  But the
artifact-deploy stage does NOT execute: deployment is attempted only
after a successful build, so it is neither run nor reported. -/
theorem C7_build_skip (env : RunEnv) (ws e : String) (rp : Repo)
    (hval : env.validateOk = true)
    (hsel : env.selection = some (ws, true))
    (hrepo : env.eclipseRepo = some rp)
    (hecl : env.eclipse = EclipseStageOutcome.returned (EclipseRet.okPair e))
    (hbg : env.buildGradleExists = false)
    (hbgk : env.buildGradleKtsExists = false) :
    build_project env.buildGradleExists env.buildGradleKtsExists env.gradleBuild
        = (false, "No build system detected (build.gradle not found)")
      ∧ Stage.buildStage ∈ (run env).trace
      ∧ Stage.deployStage ∉ (run env).trace
      ∧ Stage.tomcatStage ∈ (run env).trace
      ∧ (run env).deployed = none
      ∧ (run env).result = RunResult.ret true := by
  have hbp : build_project env.buildGradleExists env.buildGradleKtsExists
      env.gradleBuild
      = (false, "No build system detected (build.gradle not found)") := by
    simp [build_project, detect_build_system, hbg, hbgk]
  refine ⟨hbp, ?_, ?_, ?_, ?_, ?_⟩ <;>
  · simp only [run, hval, hsel, hrepo, hecl, eclipseWorkspaceBound, hbp]
    simp

theorem C7_build_skip_witness :
    Stage.deployStage ∉ (run envNoBuild).trace
      ∧ (run envNoBuild).result = RunResult.ret true := by
  have h := C7_build_skip envNoBuild "D:/ws/workspace_v1" "D:/ws/workspace_v1/ew"
    ⟨"u1", "A", ""⟩ rfl rfl rfl rfl rfl rfl
  exact ⟨h.2.2.1, h.2.2.2.2.2⟩

/-- Claim C7, counterexample to "the artifact-deploy stage still
executes": in `envNoBuild` a deployable WAR exists and would be found,
yet with the build skipped the deploy stage is never reached (while the
Tomcat stage is, and the run exits successfully). -/
theorem C7_counterexample :
    Stage.deployStage ∉ (run envNoBuild).trace
      ∧ find_war_file envNoBuild.libs = some ⟨"app.war", 5⟩
      ∧ (run envNoBuild).deployed = none
      ∧ Stage.tomcatStage ∈ (run envNoBuild).trace
      ∧ (run envNoBuild).result = RunResult.ret true := by decide

/-- A pipeline environment with a successful build and two WAR files in
`build/libs`, the second more recent than the first. -/
def envTwoWars : RunEnv :=
  ⟨true, some ("D:/ws/workspace_v1", true), [⟨"u1", "A", ""⟩], fun _ => false,
   fun _ => (true, "ok"),
   EclipseStageOutcome.returned (EclipseRet.okPair "D:/ws/workspace_v1/ew"),
   some ⟨"u1", "A", ""⟩, "C:/java", fun _ => false, id, fun _ => none,
   some [], some [], some [], true, false, (true, "Build successful"),
   some [⟨"alpha.war", 10⟩, ⟨"beta.war", 99⟩]⟩

/-- Claim C8: the deploy stage selects `war_files[0]` — the FIRST `.war`
file in `build/libs` glob order, not the most-recently-produced one; when
the build succeeded and such a file exists it becomes the deployed
artifact, and when `build/libs` is absent no artifact is found (the stage
is skipped, not failed). -/
theorem C8_first_war (files : List WarFile) (w : WarFile) (rest : List WarFile)
    (env : RunEnv) (ws e : String) (rp : Repo)
    (hfil : files.filter (fun f => pyEndsWith f.name ".war") = w :: rest)
    (hval : env.validateOk = true)
    (hsel : env.selection = some (ws, true))
    (hrepo : env.eclipseRepo = some rp)
    (hecl : env.eclipse = EclipseStageOutcome.returned (EclipseRet.okPair e))
    (hlibs : env.libs = some files)
    (hbuild : (build_project env.buildGradleExists env.buildGradleKtsExists
        env.gradleBuild).1 = true) :
    find_war_file (some files) = some w
      ∧ (run env).deployed = some w
      ∧ Stage.deployStage ∈ (run env).trace
      ∧ find_war_file none = none
      ∧ (run env).result = RunResult.ret true := by
  have hf : find_war_file (some files) = some w := by
    simp [find_war_file, hfil]
  refine ⟨hf, ?_, ?_, rfl, ?_⟩ <;>
  · simp only [run, hval, hsel, hrepo, hecl, eclipseWorkspaceBound, hlibs, hf, hbuild]
    simp

theorem C8_first_war_witness :
    (run envTwoWars).deployed = some ⟨"alpha.war", 10⟩
      ∧ Stage.deployStage ∈ (run envTwoWars).trace := by
  have h := C8_first_war [⟨"alpha.war", 10⟩, ⟨"beta.war", 99⟩] ⟨"alpha.war", 10⟩
    [⟨"beta.war", 99⟩] envTwoWars "D:/ws/workspace_v1" "D:/ws/workspace_v1/ew"
    ⟨"u1", "A", ""⟩ (by decide) rfl rfl rfl rfl rfl rfl
  exact ⟨h.2.1, h.2.2.1⟩

/-- Claim C8, counterexample to "the one with the latest production time
is the one copied": with `alpha.war` older than `beta.war` but listed
first, the code picks `alpha.war` while the specified
most-recently-produced artifact is `beta.war`. -/
theorem C8_counterexample :
    find_war_file (some [⟨"alpha.war", 10⟩, ⟨"beta.war", 99⟩])
        = some ⟨"alpha.war", 10⟩
      ∧ specNewestWar (some [⟨"alpha.war", 10⟩, ⟨"beta.war", 99⟩])
          = some ⟨"beta.war", 99⟩
      ∧ find_war_file (some [⟨"alpha.war", 10⟩, ⟨"beta.war", 99⟩])
          ≠ specNewestWar (some [⟨"alpha.war", 10⟩, ⟨"beta.war", 99⟩]) := by decide

/-- Claim C9: template rendering, corrected.  When no key or value of the
replacement map contains a placeholder delimiter (`$`, braces), the
sequential `str.replace` fold of `process_template` coincides with the
specified simultaneous substitution: every `${NAME}` occurrence becomes
the value bound to `NAME`, and unknown placeholders pass through
verbatim; the claim's two concrete examples hold.  Without that
restriction the fold re-scans earlier substitution output, and the claim
fails (see the counterexample). -/
theorem C9_template_render (m : List (List Char × List Char)) (tm : List Seg)
    (hw : wfT tm = true) (hm : cleanMap m = true) :
    process_template (flattenT tm) m = specRender tm m
      ∧ process_template (("port=$\x7bTOMCAT_PORT\x7d").data)
          [(("TOMCAT_PORT").data, ("8080").data)] = ("port=8080").data
      ∧ process_template (("$\x7bUNKNOWN\x7d").data)
          [(("TOMCAT_PORT").data, ("8080").data)] = ("$\x7bUNKNOWN\x7d").data :=
  ⟨process_template_eq_specRender_aux m tm hw hm, by decide, by decide⟩

theorem C9_template_render_witness :
    process_template
        (flattenT [Seg.lit (("port=").data), Seg.ph (("TOMCAT_PORT").data)])
        [(("TOMCAT_PORT").data, ("8080").data)]
      = specRender [Seg.lit (("port=").data), Seg.ph (("TOMCAT_PORT").data)]
        [(("TOMCAT_PORT").data, ("8080").data)] :=
  (C9_template_render [(("TOMCAT_PORT").data, ("8080").data)]
    [Seg.lit (("port=").data), Seg.ph (("TOMCAT_PORT").data)]
    (by decide) (by decide)).1

/-- Claim C9, counterexample: with the map `A ↦ ${B}, B ↦ x` (insertion
order A then B), rendering the template `${A}` yields `x` — the
sequential fold substitutes again inside the value just inserted for `A`,
whereas the claim requires the bound value `${B}` to appear verbatim
(as the simultaneous rendering does). -/
theorem C9_counterexample :
    process_template (flattenT [Seg.ph (("A").data)])
        [(("A").data, ("$\x7bB\x7d").data), (("B").data, ("x").data)]
      = ("x").data
    ∧ specRender [Seg.ph (("A").data)]
        [(("A").data, ("$\x7bB\x7d").data), (("B").data, ("x").data)]
      = ("$\x7bB\x7d").data
    ∧ (("x").data : List Char) ≠ ("$\x7bB\x7d").data := by decide

/-- Claim C10: on every run of the Gradle-configuration stage the
deletion sub-step removes exactly the `spring-web-5.3*.jar` files whose
names contain neither `webmvc` nor `websocket` from
`WebContent/WEB-INF/lib`; when that directory is absent the sub-step
fails, which makes the whole stage report failure naming `spring-web
JARs` even when the property-file and build-file edits succeeded. -/
theorem C10_jar_deletion (javaPath : String) (searchP1 : List Char → Bool)
    (subP2 : List Char → List Char) (endP3 : List Char → Option Nat)
    (props : Option (List String)) (bg : Option (List Char))
    (names : List String)
    (h1 : (configure_gradle_properties_file props javaPath).2.1 = true)
    (h2 : (configure_build_gradle searchP1 subP2 endP3 bg).ok = true) :
    (delete_spring_web_jars (some names)).deleted = names.filter springWebTarget
      ∧ (delete_spring_web_jars (some names)).remaining
          = some (names.filter (fun n => !springWebTarget n))
      ∧ (∀ n ∈ (delete_spring_web_jars (some names)).deleted,
          sjGlobMatch n = true
            ∧ containsSub (lowerStr n).data webmvcMark = false
            ∧ containsSub (lowerStr n).data websocketMark = false)
      ∧ (delete_spring_web_jars none).ok = false
      ∧ (configure_gradle_project javaPath searchP1 subP2 endP3 props bg none).ok
          = false
      ∧ (configure_gradle_project javaPath searchP1 subP2 endP3 props bg none).msg
          = "Some configurations failed: spring-web JARs" := by
  obtain ⟨d1, d2, _⟩ := delete_spring_web_jars_some names
  obtain ⟨g1, g2⟩ := configure_gradle_project_no_lib javaPath searchP1 subP2 endP3
    props bg h1 h2
  refine ⟨d1, d2, ?_, rfl, g1, g2⟩
  intro n hn
  rw [d1] at hn
  have ht := List.of_mem_filter hn
  simp only [springWebTarget, Bool.and_eq_true, Bool.not_eq_true'] at ht
  exact ⟨ht.1.1, ht.1.2, ht.2⟩

theorem C10_jar_deletion_witness :
    (delete_spring_web_jars (some ["spring-web-5.3.19.jar",
        "spring-webmvc-5.3.19.jar", "readme.txt"])).deleted
        = ["spring-web-5.3.19.jar"]
      ∧ sjGlobMatch "spring-web-5.3.19.jar" = true
      ∧ (configure_gradle_project "C:/java" (fun _ => false) id (fun _ => none)
          (some ["x=1"]) (some []) none).ok = false := by
  have h := C10_jar_deletion "C:/java" (fun _ => false) id (fun _ => none)
    (some ["x=1"]) (some []) ["spring-web-5.3.19.jar",
      "spring-webmvc-5.3.19.jar", "readme.txt"] (by decide) (by decide)
  refine ⟨?_, ?_, h.2.2.2.2.1⟩
  · rw [h.1]; decide
  · exact (h.2.2.1 "spring-web-5.3.19.jar" (by rw [h.1]; decide)).1
